import Mathlib

/-!
Verification of the C11 safetensors loader (`csafetensors.c`).

The development shallowly embeds the loader in Lean 4:

* machine integers (`uint16_t`, `uint32_t`, `uint64_t`/`size_t`) are `Nat`
  with explicit `% 2^w` at the points where C arithmetic can wrap or a cast
  narrows a value;
* byte buffers and C strings are `List Nat` of byte values; `strcmp`-equality
  is equality of the prefixes before the first NUL byte;
* `float`/`double` values are represented by their IEEE-754 bit patterns
  (for the half-float codec) or by exact rationals (for the JSON number
  values, see `jsonParseNumber`);
* fallible C functions returning `NULL`/`false` become `Option`, and the
  loader entry points become `Except` over the C error enum.
-/

set_option maxRecDepth 8000

namespace CSafetensors

/-! ## Half-float codec (`csafetensors_bf16_to_f32`, `csafetensors_f32_to_f16`,
`csafetensors_f16_to_f32`).  Floats are represented by their bit patterns. -/

/-- Bit pattern of `csafetensors_bf16_to_f32`: the C code places the 16-bit
input in the upper half of a 32-bit word (`cvt.u32 = ((uint32_t)x) << 16`)
and reinterprets it as a `float`; the result's bit pattern is that word. -/
def csafetensors_bf16_to_f32 (x : Nat) : Nat :=
  (x <<< 16) % 2 ^ 32

/-- Fueled floor of the base-2 logarithm (the fuel makes it structurally
recursive, hence kernel-computable; `log2nat` below instantiates the fuel). -/
def log2Fuel : Nat → Nat → Nat
  | 0, _ => 0
  | fuel + 1, n => if 2 ≤ n then log2Fuel fuel (n / 2) + 1 else 0

/-- Floor of the base-2 logarithm of `n` (0 for `n = 0`), correct for every
`n < 2^16`, which covers the 10-bit mantissas it is applied to. -/
def log2nat (n : Nat) : Nat := log2Fuel 16 n

/-- Bit pattern of the exact IEEE-754 single that `o.f -= magic.f` produces in
the denormal branch of `csafetensors_f16_to_f32`.  Before the subtraction the
word is `(113 << 23) + (mant << 13)`, the single `2^-14 * (1 + mant/1024)`;
`magic` is `113 << 23`, the single `2^-14`.  Their difference `mant * 2^-24`
has at most 10 significant bits and lies in the normal `float` range, so the
hardware subtraction is exact and the result is the normalized encoding of
`mant * 2^-24` computed here (`0` when `mant = 0`). -/
def f16DenormDiffBits (mant : Nat) : Nat :=
  if mant = 0 then 0
  else
    let L := log2nat mant
    ((103 + L) <<< 23) ||| ((mant - 2 ^ L) <<< (23 - L))

/-- Bit pattern of `csafetensors_f16_to_f32`.  Mirrors the C word operations;
the only floating-point operation in the source, the denormal-branch
subtraction, is modelled by `f16DenormDiffBits` (exact, see its docstring). -/
def csafetensors_f16_to_f32 (x : Nat) : Nat :=
  let u0 := (x &&& 0x7fff) <<< 13
  let exp := 0x0f800000 &&& u0
  let u1 := (u0 + 0x38000000) % 0x100000000
  let u2 :=
    if exp = 0x0f800000 then (u1 + 0x38000000) % 0x100000000
    else if exp = 0 then f16DenormDiffBits (x &&& 0x3ff)
    else u1
  u2 ||| ((x &&& 0x8000) <<< 16)

/-- Result of `csafetensors_f32_to_f16` on the single with bit pattern `u`.
Pure integer code in the source; `(uint16_t)` casts and the `result++`
increments are taken `% 2^16`, and the C `int` subtraction `exp - 127 + 15`
is `Int` arithmetic. -/
def csafetensors_f32_to_f16 (u : Nat) : Nat :=
  let sign := (u >>> 16) &&& 0x8000
  let exp := (u >>> 23) &&& 0xff
  let mant := u &&& 0x7fffff
  if exp = 0 then sign % 65536
  else if exp = 255 then (sign ||| 0x7c00 ||| (if mant ≠ 0 then 0x200 else 0)) % 65536
  else
    let newexp : Int := (exp : Int) - 127 + 15
    if 31 ≤ newexp then (sign ||| 0x7c00) % 65536
    else if newexp ≤ 0 then
      if (14 - newexp) ≤ 24 then
        let m := mant ||| 0x800000
        let r := (sign ||| (m >>> (14 - newexp).toNat)) % 65536
        if (m >>> (13 - newexp).toNat) &&& 1 = 1 then (r + 1) % 65536 else r
      else sign % 65536
    else
      let r := (sign ||| ((newexp.toNat <<< 10) ||| (mant >>> 13))) % 65536
      if mant &&& 0x1000 ≠ 0 then (r + 1) % 65536 else r

/-! ### Bit-arithmetic toolkit used to analyse the codec -/

/-- Conjunction with a mask of the form `(2^a - 1) <<< b` extracts the bit
field of width `a` starting at bit `b`, in division/modulus form. -/
theorem maskMid (a b x : Nat) :
    ((2 ^ a - 1) <<< b) &&& x = x / 2 ^ b % 2 ^ a * 2 ^ b := by
  apply Nat.eq_of_testBit_eq
  intro i
  rw [Nat.testBit_and, Nat.testBit_shiftLeft, Nat.mul_comm, Nat.testBit_mul_pow_two,
    Nat.testBit_mod_two_pow, Nat.testBit_two_pow_sub_one]
  rcases Nat.lt_or_ge i b with hib | hib
  · simp [Nat.not_le.mpr hib]
  · have hdiv : x / 2 ^ b = x >>> b := (Nat.shiftRight_eq_div_pow x b).symm
    rw [hdiv, Nat.testBit_shiftRight]
    have hba : b + (i - b) = i := by omega
    rw [hba]
    simp [hib, Bool.and_comm, Bool.and_assoc, Bool.and_left_comm]

/-- Conjunction with a single-bit mask `2^k`, in division/modulus form. -/
theorem maskBit (k x : Nat) : x &&& 2 ^ k = x / 2 ^ k % 2 * 2 ^ k := by
  rw [Nat.and_two_pow, Nat.toNat_testBit]

/-- Value of `csafetensors_f16_to_f32` on a normal half pattern
`s·2^15 + e·2^10 + m` with `1 ≤ e ≤ 30`: the exactly re-biased single. -/
theorem f16_to_f32_normal (s e m : Nat) (hs : s ≤ 1) (he1 : 1 ≤ e) (he2 : e ≤ 30)
    (hm : m < 1024) :
    csafetensors_f16_to_f32 (s * 32768 + e * 1024 + m)
      = s * 2147483648 + (e + 112) * 8388608 + m * 8192 := by
  simp only [csafetensors_f16_to_f32]
  have h1 : (s * 32768 + e * 1024 + m) &&& 32767 = e * 1024 + m := by
    have h15 : (32767 : Nat) = 2 ^ 15 - 1 := by norm_num
    rw [h15, Nat.and_pow_two_sub_one_eq_mod]
    omega
  rw [h1, Nat.shiftLeft_eq]
  have h2 : (260046848 : Nat) &&& (e * 1024 + m) * 2 ^ 13
      = (e * 1024 + m) * 2 ^ 13 / 2 ^ 23 % 2 ^ 5 * 2 ^ 23 := by
    have hmask : (260046848 : Nat) = (2 ^ 5 - 1) <<< 23 := by
      rw [Nat.shiftLeft_eq]; norm_num
    rw [hmask, maskMid]
  rw [h2]
  have h3 : (e * 1024 + m) * 2 ^ 13 / 2 ^ 23 % 2 ^ 5 * 2 ^ 23 = e * 8388608 := by
    norm_num
    omega
  rw [h3]
  have h4 : ¬ e * 8388608 = 260046848 := by omega
  have h5 : ¬ e * 8388608 = 0 := by omega
  rw [if_neg h4, if_neg h5]
  have h6 : (s * 32768 + e * 1024 + m) &&& 32768 = s * 32768 := by
    have h15 : (32768 : Nat) = 2 ^ 15 := by norm_num
    rw [h15, maskBit]
    have : (s * 2 ^ 15 + e * 1024 + m) / 2 ^ 15 % 2 = s := by omega
    omega
  rw [h6, Nat.shiftLeft_eq]
  have h7 : ((e * 1024 + m) * 2 ^ 13 + 939524096) % 4294967296
      = (e + 112) * 8388608 + m * 8192 := by
    have : (e * 1024 + m) * 2 ^ 13 + 939524096 = (e + 112) * 8388608 + m * 8192 := by
      norm_num; omega
    omega
  rw [h7]
  have h8 : s * 32768 * 2 ^ 16 = 2 ^ 31 * s := by ring
  rw [h8, Nat.or_comm, ← Nat.mul_add_lt_is_or (by omega) s]
  omega

/-- Value of `csafetensors_f32_to_f16` on a single pattern
`s·2^31 + E·2^23 + m·2^13` with `113 ≤ E ≤ 142`: the re-biased half. -/
theorem f32_to_f16_normal (s E m : Nat) (hs : s ≤ 1) (hE1 : 113 ≤ E) (hE2 : E ≤ 142)
    (hm : m < 1024) :
    csafetensors_f32_to_f16 (s * 2147483648 + E * 8388608 + m * 8192)
      = s * 32768 + (E - 112) * 1024 + m := by
  simp only [csafetensors_f32_to_f16]
  have hsign : (s * 2147483648 + E * 8388608 + m * 8192) >>> 16 &&& 32768 = s * 32768 := by
    rw [Nat.shiftRight_eq_div_pow]
    have h15 : (32768 : Nat) = 2 ^ 15 := by norm_num
    rw [h15, maskBit]
    have : (s * 2147483648 + E * 8388608 + m * 8192) / 2 ^ 16 / 2 ^ 15 % 2 = s := by
      rw [Nat.div_div_eq_div_mul]
      norm_num
      omega
    omega
  have hexp : (s * 2147483648 + E * 8388608 + m * 8192) >>> 23 &&& 255 = E := by
    rw [Nat.shiftRight_eq_div_pow]
    have h8 : (255 : Nat) = 2 ^ 8 - 1 := by norm_num
    rw [h8, Nat.and_pow_two_sub_one_eq_mod]
    norm_num
    omega
  have hmant : (s * 2147483648 + E * 8388608 + m * 8192) &&& 8388607 = m * 8192 := by
    have h23 : (8388607 : Nat) = 2 ^ 23 - 1 := by norm_num
    rw [h23, Nat.and_pow_two_sub_one_eq_mod]
    omega
  rw [hsign, hexp, hmant]
  rw [if_neg (by omega), if_neg (by omega)]
  rw [if_neg (by omega), if_neg (by omega)]
  have htn : ((E : Int) - 127 + 15).toNat = E - 112 := by omega
  rw [htn, Nat.shiftLeft_eq]
  have hsr : (m * 8192) >>> 13 = m := by
    rw [Nat.shiftRight_eq_div_pow]
    omega
  rw [hsr]
  have hor1 : (E - 112) * 2 ^ 10 ||| m = (E - 112) * 1024 + m := by
    rw [Nat.mul_comm, ← Nat.mul_add_lt_is_or hm]
    ring
  rw [hor1]
  have hor2 : s * 32768 ||| ((E - 112) * 1024 + m) = s * 32768 + ((E - 112) * 1024 + m) := by
    have h15 : s * 32768 = 2 ^ 15 * s := by ring
    rw [h15, ← Nat.mul_add_lt_is_or (by omega) s]
  rw [hor2]
  have hmod : (s * 32768 + ((E - 112) * 1024 + m)) % 65536
      = s * 32768 + (E - 112) * 1024 + m := by omega
  rw [hmod]
  have hbit : m * 8192 &&& 4096 = 0 := by
    have h12 : (4096 : Nat) = 2 ^ 12 := by norm_num
    rw [h12, maskBit]
    omega
  rw [if_neg (by rw [hbit]; omega)]

/-- Boolean round-trip check at a single half pattern (true also at the
infinity/NaN exponent, which claim C7 excludes). -/
def chkC7 (x : Nat) : Bool :=
  ((x >>> 10) &&& 31 == 31) || (csafetensors_f32_to_f16 (csafetensors_f16_to_f32 x) == x)

/-- Balanced exhaustive run of `chkC7` over `[lo, lo + 2^d)`; a binary split
keeps kernel evaluation shallow. -/
def chkPow2 : Nat → Nat → Bool
  | 0, lo => chkC7 lo
  | d + 1, lo => chkPow2 d lo && chkPow2 d (lo + 2 ^ d)

theorem chkPow2_spec :
    ∀ d lo i, chkPow2 d lo = true → lo ≤ i → i < lo + 2 ^ d → chkC7 i = true
  | 0, lo, i, h, h1, h2 => by
      have hi0 : i = lo := by omega
      subst hi0
      simpa [chkPow2] using h
  | d + 1, lo, i, h, h1, h2 => by
      rw [chkPow2, Bool.and_eq_true] at h
      by_cases hc : i < lo + 2 ^ d
      · exact chkPow2_spec d lo i h.1 h1 hc
      · have h2p : 2 ^ (d + 1) = 2 ^ d + 2 ^ d := by rw [pow_succ]; omega
        exact chkPow2_spec d (lo + 2 ^ d) i h.2 (by omega) (by omega)

/-- Exhaustive check of the 1024 positive subnormal-or-zero half patterns. -/
theorem chkDenormLow : chkPow2 10 0 = true := by decide

/-- Exhaustive check of the 1024 negative subnormal-or-zero half patterns. -/
theorem chkDenormHigh : chkPow2 10 32768 = true := by decide

/-- C7: composing `csafetensors_f16_to_f32` with `csafetensors_f32_to_f16` is
the identity on every 16-bit pattern whose exponent field is not 31, i.e. on
every finite half-representable value. -/
theorem c7_f16_f32_roundtrip_identity (x : Nat) (hx : x < 65536)
    (hfin : (x >>> 10) &&& 31 ≠ 31) :
    csafetensors_f32_to_f16 (csafetensors_f16_to_f32 x) = x := by
  have hde : (x >>> 10) &&& 31 = x / 1024 % 32 := by
    rw [Nat.shiftRight_eq_div_pow]
    have h5 : (31 : Nat) = 2 ^ 5 - 1 := by norm_num
    rw [h5, Nat.and_pow_two_sub_one_eq_mod]
  rw [hde] at hfin
  by_cases he : x / 1024 % 32 = 0
  · have hx' : x < 1024 ∨ (32768 ≤ x ∧ x < 33792) := by omega
    have hchk : chkC7 x = true := by
      rcases hx' with h | h
      · exact chkPow2_spec 10 0 x chkDenormLow (by omega) (by omega)
      · exact chkPow2_spec 10 32768 x chkDenormHigh (by omega) (by omega)
    simp only [chkC7, Bool.or_eq_true, beq_iff_eq, hde] at hchk
    rcases hchk with h | h
    · omega
    · exact h
  · have hxsplit : x = x / 32768 * 32768 + x / 1024 % 32 * 1024 + x % 1024 := by omega
    rw [hxsplit, f16_to_f32_normal _ _ _ (by omega) (by omega) (by omega) (by omega),
      f32_to_f16_normal _ _ _ (by omega) (by omega) (by omega) (by omega)]
    omega

/-- Witness for C7: the pattern of `1.0` (`0x3c00`) is finite and round-trips. -/
theorem c7_f16_f32_roundtrip_identity_witness :
    15360 < 65536 ∧ ((15360 >>> 10) &&& 31 ≠ 31) ∧
      csafetensors_f32_to_f16 (csafetensors_f16_to_f32 15360) = 15360 :=
  ⟨by decide, by decide, c7_f16_f32_roundtrip_identity 15360 (by decide) (by decide)⟩

/-- C8: for every 16-bit pattern `x`, the 32-bit pattern produced by
`csafetensors_bf16_to_f32` is exactly `x` shifted left by 16 bits, and
extracting the upper 16 bits of it yields `x` again. -/
theorem c8_bf16_to_f32_shift_roundtrip (x : Nat) (hx : x < 65536) :
    csafetensors_bf16_to_f32 x = x <<< 16 ∧ (csafetensors_bf16_to_f32 x) >>> 16 = x := by
  have hval : csafetensors_bf16_to_f32 x = x <<< 16 := by
    unfold csafetensors_bf16_to_f32
    rw [Nat.shiftLeft_eq]
    norm_num
    omega
  refine ⟨hval, ?_⟩
  rw [hval, Nat.shiftLeft_eq, Nat.shiftRight_eq_div_pow]
  omega

/-- Witness for C8 at the bf16 pattern of `1.0` (`0x3f80`). -/
theorem c8_bf16_to_f32_shift_roundtrip_witness :
    16256 < 65536 ∧ csafetensors_bf16_to_f32 16256 = 16256 <<< 16 ∧
      (csafetensors_bf16_to_f32 16256) >>> 16 = 16256 := by
  have h := c8_bf16_to_f32_shift_roundtrip 16256 (by decide)
  exact ⟨by decide, h.1, h.2⟩

/-! ## Embedded JSON parser (`json_parse_*` of the source)

Byte buffers and parsed strings are `List Nat` of byte values.  A JSON number
is kept as the exact rational value of the literal; the C code stores the
`strtod` binary64 rounding of it, and the two agree on every literal exactly
representable in binary64 - in particular on every integer below `2^53`,
which is the range the format's `shape`/`data_offsets` fields use. -/

/-- Bytes of an ASCII string literal. -/
def bytesOfAscii (s : String) : List Nat := s.toList.map Char.toNat

/-- Prefix of a byte list before the first NUL, i.e. its value as a C string. -/
def upToNul (s : List Nat) : List Nat := s.takeWhile (fun b => b ≠ 0)

/-- Model of `strcmp(a, b) == 0`: the C-string values agree. -/
def strcmpEq (a b : List Nat) : Bool := upToNul a == upToNul b

/-- Parsed JSON tree (`json_value_t`).  Object pairs keep insertion order. -/
inductive JsonValue where
  | null
  | bool (b : Bool)
  | num (q : ℚ)
  | str (s : List Nat)
  | arr (items : List JsonValue)
  | obj (pairs : List (List Nat × JsonValue))

/-- Whitespace skipping of `json_skip_whitespace`: space, tab, LF, CR. -/
def jsonSkipWs : List Nat → List Nat
  | c :: rest => if c = 32 ∨ c = 9 ∨ c = 10 ∨ c = 13 then jsonSkipWs rest else c :: rest
  | [] => []

/-- Hex-digit value, as `json_hex_digit` (`none` for the C -1). -/
def json_hex_digit (c : Nat) : Option Nat :=
  if 48 ≤ c ∧ c ≤ 57 then some (c - 48)
  else if 97 ≤ c ∧ c ≤ 102 then some (10 + c - 97)
  else if 65 ≤ c ∧ c ≤ 70 then some (10 + c - 65)
  else none

/-- Accumulation of four hex digits, `codepoint = (codepoint << 4) | digit`. -/
def hex4 (a b c d : Nat) : Option Nat :=
  match json_hex_digit a, json_hex_digit b, json_hex_digit c, json_hex_digit d with
  | some ha, some hb, some hc, some hd => some ((((ha <<< 4) ||| hb) <<< 4 ||| hc) <<< 4 ||| hd)
  | _, _, _, _ => none

/-- UTF-8 byte sequence emitted for a code point by `json_parse_unicode_escape`. -/
def utf8Encode (cp : Nat) : List Nat :=
  if cp < 0x80 then [cp]
  else if cp < 0x800 then [0xC0 ||| (cp >>> 6), 0x80 ||| (cp &&& 0x3F)]
  else if cp < 0x10000 then
    [0xE0 ||| (cp >>> 12), 0x80 ||| ((cp >>> 6) &&& 0x3F), 0x80 ||| (cp &&& 0x3F)]
  else
    [0xF0 ||| (cp >>> 18), 0x80 ||| ((cp >>> 12) &&& 0x3F), 0x80 ||| ((cp >>> 6) &&& 0x3F),
      0x80 ||| (cp &&& 0x3F)]

/-- The `\\uXXXX` escape of `json_parse_unicode_escape`, with its
surrogate-pair logic: the bytes to append and the remaining input. -/
def uEscape (rest2 : List Nat) : Option (List Nat × List Nat) :=
  match rest2 with
  | a :: b :: c2 :: d :: rest3 =>
    match hex4 a b c2 d with
    | none => none
    | some cp =>
      if 0xD800 ≤ cp ∧ cp ≤ 0xDBFF then
        match rest3 with
        | g1 :: g2 :: a2 :: b2 :: c3 :: d2 :: rest4 =>
          if g1 = 92 ∧ g2 = 117 then
            match hex4 a2 b2 c3 d2 with
            | none => none
            | some lo =>
              if 0xDC00 ≤ lo ∧ lo ≤ 0xDFFF then
                some (utf8Encode (0x10000 + ((cp - 0xD800) <<< 10) + (lo - 0xDC00)), rest4)
              else none
          else none
        | _ => none
      else some (utf8Encode cp, rest3)
  | _ => none

/-- Body loop of `json_parse_string`, after the opening quote: ends at `"`,
rejects raw control bytes, handles the escapes.  The C loop walks the buffer;
here a fuel counter (the wrapper passes the input length, and every step
consumes at least one byte) makes the recursion structural.  Output bytes
accumulate reversed in `acc` exactly as the C code appends to its buffer. -/
def jpslF : Nat → List Nat → List Nat → Option (List Nat × List Nat)
  | 0, _, _ => none
  | fuel + 1, acc, input =>
    match input with
    | [] => none
    | c :: rest =>
      if c = 34 then some (acc.reverse, rest)
      else if c < 32 then none
      else if c = 92 then
        match rest with
        | [] => none
        | e :: rest2 =>
          if e = 34 then jpslF fuel (34 :: acc) rest2
          else if e = 92 then jpslF fuel (92 :: acc) rest2
          else if e = 47 then jpslF fuel (47 :: acc) rest2
          else if e = 98 then jpslF fuel (8 :: acc) rest2
          else if e = 102 then jpslF fuel (12 :: acc) rest2
          else if e = 110 then jpslF fuel (10 :: acc) rest2
          else if e = 114 then jpslF fuel (13 :: acc) rest2
          else if e = 116 then jpslF fuel (9 :: acc) rest2
          else if e = 117 then
            match uEscape rest2 with
            | none => none
            | some (bs, rest3) => jpslF fuel (bs.reverse ++ acc) rest3
          else none
      else jpslF fuel (c :: acc) rest

/-- The loop with enough fuel for its whole input. -/
def json_parse_string_loop (acc input : List Nat) : Option (List Nat × List Nat) :=
  jpslF input.length acc input

/-- Digit run of the number scanner (`while isdigit`). -/
def takeDigits : List Nat → List Nat × List Nat
  | [] => ([], [])
  | c :: rest =>
    if 48 ≤ c ∧ c ≤ 57 then
      let p := takeDigits rest
      (c :: p.1, p.2)
    else ([], c :: rest)

/-- Numeric value of a digit run. -/
def digitsVal (ds : List Nat) : Nat := ds.foldl (fun acc c => acc * 10 + (c - 48)) 0

/-- Exact rational value of a validated literal: modelled value of the C
`strtod` on it (see the section comment for the rounding caveat). -/
def decimalValue (neg : Bool) (ids fds : List Nat) (esign : Int) (eds : List Nat) : ℚ :=
  let mant : Int := (if neg then -1 else 1) * ((digitsVal ids) * 10 ^ fds.length + digitsVal fds)
  let e : Int := esign * (digitsVal eds : Int) - (fds.length : Int)
  if 0 ≤ e then ((mant * 10 ^ e.toNat : Int) : ℚ)
  else mkRat mant (10 ^ (-e).toNat)

/-- Model of `json_parse_number`: C grammar (optional `-`; `0` or nonzero-led
digits; optional fraction requiring a digit; optional exponent requiring a
digit), value as in `decimalValue`. -/
def json_parse_number (input : List Nat) : Option (ℚ × List Nat) :=
  let sgn := match input with
    | 45 :: r => (true, r)
    | _ => (false, input)
  match sgn.2 with
  | [] => none
  | c :: r =>
    let ip : Option (List Nat × List Nat) :=
      if c = 48 then some ([48], r)
      else if 49 ≤ c ∧ c ≤ 57 then
        let p := takeDigits r
        some (c :: p.1, p.2)
      else none
    match ip with
    | none => none
    | some (ids, s2) =>
      let fp : Option (List Nat × List Nat) :=
        match s2 with
        | 46 :: r2 =>
          match r2 with
          | d :: _ => if 48 ≤ d ∧ d ≤ 57 then some (takeDigits r2) else none
          | [] => none
        | _ => some ([], s2)
      match fp with
      | none => none
      | some (fds, s3) =>
        let ep : Option (Int × List Nat × List Nat) :=
          match s3 with
          | e :: r3 =>
            if e = 101 ∨ e = 69 then
              let se : Int × List Nat := match r3 with
                | 43 :: r4 => (1, r4)
                | 45 :: r4 => (-1, r4)
                | _ => (1, r3)
              match se.2 with
              | d :: _ =>
                if 48 ≤ d ∧ d ≤ 57 then
                  let p := takeDigits se.2
                  some (se.1, p.1, p.2)
                else none
              | [] => none
            else some (1, [], s3)
          | [] => some (1, [], s3)
        match ep with
        | none => none
        | some (esign, eds, s4) => some (decimalValue sgn.1 ids fds esign eds, s4)

/-! The mutually recursive value/array/object parsers.  The C functions recurse
on the machine stack; here a `fuel` counter decreases at every call, and the
loader below passes `3 * header_size + 8` fuel, which bounds the C parser's
recursion on its input (each unit of nesting costs three calls and consumes
at least one input byte). -/

mutual

/-- Model of `json_parse_value`: dispatch on the first non-whitespace byte. -/
def json_parse_value : Nat → List Nat → Option (JsonValue × List Nat)
  | 0, _ => none
  | fuel + 1, input =>
    match jsonSkipWs input with
    | [] => none
    | c :: rest =>
      if c = 110 then
        match rest with
        | 117 :: 108 :: 108 :: r => some (.null, r)
        | _ => none
      else if c = 116 then
        match rest with
        | 114 :: 117 :: 101 :: r => some (.bool true, r)
        | _ => none
      else if c = 102 then
        match rest with
        | 97 :: 108 :: 115 :: 101 :: r => some (.bool false, r)
        | _ => none
      else if c = 34 then
        match json_parse_string_loop [] rest with
        | some (s, r) => some (.str s, r)
        | none => none
      else if c = 91 then json_parse_array fuel rest
      else if c = 123 then json_parse_object fuel rest
      else if c = 45 ∨ (48 ≤ c ∧ c ≤ 57) then
        match json_parse_number (c :: rest) with
        | some (q, r) => some (.num q, r)
        | none => none
      else none

/-- Model of `json_parse_array`, after the `[` byte. -/
def json_parse_array : Nat → List Nat → Option (JsonValue × List Nat)
  | 0, _ => none
  | fuel + 1, input =>
    match jsonSkipWs input with
    | 93 :: r => some (.arr [], r)
    | s => json_parse_array_items fuel [] s

/-- Element loop of `json_parse_array`; `acc` holds parsed items reversed. -/
def json_parse_array_items :
    Nat → List JsonValue → List Nat → Option (JsonValue × List Nat)
  | 0, _, _ => none
  | fuel + 1, acc, input =>
    match json_parse_value fuel input with
    | none => none
    | some (item, r) =>
      match jsonSkipWs r with
      | [] => none
      | 93 :: r2 => some (.arr (item :: acc).reverse, r2)
      | 44 :: r2 => json_parse_array_items fuel (item :: acc) (jsonSkipWs r2)
      | _ => none

/-- Model of `json_parse_object`, after the `{` byte. -/
def json_parse_object : Nat → List Nat → Option (JsonValue × List Nat)
  | 0, _ => none
  | fuel + 1, input =>
    match jsonSkipWs input with
    | 125 :: r => some (.obj [], r)
    | s => json_parse_object_items fuel [] s

/-- Member loop of `json_parse_object`; `acc` holds parsed pairs reversed.
A key `strcmp`-equal to one already in `acc` is a parse error (the
duplicate-key scan of the source, lines 466-475). -/
def json_parse_object_items :
    Nat → List (List Nat × JsonValue) → List Nat → Option (JsonValue × List Nat)
  | 0, _, _ => none
  | fuel + 1, acc, input =>
    match input with
    | 34 :: r =>
      match json_parse_string_loop [] r with
      | none => none
      | some (key, r1) =>
        match jsonSkipWs r1 with
        | 58 :: r2 =>
          match json_parse_value fuel r2 with
          | none => none
          | some (v, r3) =>
            if acc.any (fun p => strcmpEq p.1 key) then none
            else
              match jsonSkipWs r3 with
              | [] => none
              | 125 :: r4 => some (.obj ((key, v) :: acc).reverse, r4)
              | 44 :: r4 => json_parse_object_items fuel ((key, v) :: acc) (jsonSkipWs r4)
              | _ => none
        | _ => none
    | _ => none

end

/-! ## Header validation and the loaded object (`parse_tensor`,
`parse_safetensors_header`, `csafetensors_t`) -/

/-- Dtype enumeration `csafetensors_dtype_t`, in declaration order. -/
inductive CsDtype where
  | bool | uint8 | int8 | int16 | uint16 | float16 | bfloat16
  | int32 | uint32 | float32 | float64 | int64 | uint64
deriving DecidableEq, Repr

/-- Element size of `csafetensors_dtype_size`. -/
def csafetensors_dtype_size : CsDtype → Nat
  | .bool => 1
  | .uint8 => 1
  | .int8 => 1
  | .uint16 => 2
  | .int16 => 2
  | .float16 => 2
  | .bfloat16 => 2
  | .uint32 => 4
  | .int32 => 4
  | .float32 => 4
  | .uint64 => 8
  | .int64 => 8
  | .float64 => 8

/-- Model of `parse_dtype_string`: the `strcmp` cascade of the source. -/
def parse_dtype_string (s : List Nat) : Option CsDtype :=
  if strcmpEq s (bytesOfAscii "BOOL") then some .bool
  else if strcmpEq s (bytesOfAscii "U8") then some .uint8
  else if strcmpEq s (bytesOfAscii "I8") then some .int8
  else if strcmpEq s (bytesOfAscii "U16") then some .uint16
  else if strcmpEq s (bytesOfAscii "I16") then some .int16
  else if strcmpEq s (bytesOfAscii "U32") then some .uint32
  else if strcmpEq s (bytesOfAscii "I32") then some .int32
  else if strcmpEq s (bytesOfAscii "U64") then some .uint64
  else if strcmpEq s (bytesOfAscii "I64") then some .int64
  else if strcmpEq s (bytesOfAscii "F16") then some .float16
  else if strcmpEq s (bytesOfAscii "BF16") then some .bfloat16
  else if strcmpEq s (bytesOfAscii "F32") then some .float32
  else if strcmpEq s (bytesOfAscii "F64") then some .float64
  else none

/-- Model of the C cast `(size_t)` applied to a parsed JSON number (the source
stores it as `double`): truncation toward zero, reduced `% 2^64`.  For `q ≥ 0`
this is `⌊q⌋ % 2^64` (`num.toNat / den` is the floor since `den > 0`).  The C
cast is defined only for values in `[0, 2^64)`; on a negative or oversized
value the C behaviour is undefined and this total model extends it (negative
values become 0, larger ones wrap). -/
def castSizeT (q : ℚ) : Nat := q.num.toNat / q.den % 2 ^ 64

/-- Tensor record `csafetensors_tensor_t`; `shape` keeps the first `n_dims`
slots of the fixed array, and `name` the NUL-truncated `strncpy` copy. -/
structure CsTensor where
  name : List Nat
  dtype : CsDtype
  shape : List Nat
  data_offset_begin : Nat
  data_offset_end : Nat
deriving DecidableEq, Repr

/-- Lookup of `json_object_get`: first pair whose key `strcmp`-equals `key`. -/
def json_object_get (pairs : List (List Nat × JsonValue)) (key : List Nat) :
    Option JsonValue :=
  (pairs.find? (fun p => strcmpEq p.1 key)).map (fun p => p.2)

/-- Shape elements in order: each must be a JSON number, cast by `(size_t)`. -/
def shapeDims : List JsonValue → Option (List Nat)
  | [] => some []
  | .num q :: rest => (shapeDims rest).map (fun l => castSizeT q :: l)
  | _ => none

/-- Stored copy of a name: `strncpy(dst, src, CSAFETENSORS_MAX_STRING_LEN - 1)`
into a zeroed 4096-byte buffer keeps at most 4095 bytes of the C-string. -/
def strncpyStore (s : List Nat) : List Nat := (upToNul s).take 4095

/-- Model of `parse_tensor` (lines 732-803): `dtype` string, `shape` array of
at most 8 numbers, then `data_offsets` - forbidden when some dimension is 0
(offsets default to `(0, 0)`), otherwise required to be an array of exactly
two numbers. -/
def parse_tensor (name : List Nat) (v : JsonValue) : Option CsTensor :=
  match v with
  | .obj pairs =>
    let stored := strncpyStore name
    match json_object_get pairs (bytesOfAscii "dtype") with
    | some (.str ds) =>
      match parse_dtype_string ds with
      | some dt =>
        match json_object_get pairs (bytesOfAscii "shape") with
        | some (.arr items) =>
          if 8 < items.length then none
          else
            match shapeDims items with
            | some dims =>
              match json_object_get pairs (bytesOfAscii "data_offsets"),
                  dims.any (fun d => d = 0) with
              | some _, true => none
              | none, true => some ⟨stored, dt, dims, 0, 0⟩
              | some (.arr [.num qb, .num qe]), false =>
                some ⟨stored, dt, dims, castSizeT qb, castSizeT qe⟩
              | _, _ => none
            | none => none
        | _ => none
      | none => none
    | _ => none
  | _ => none

/-- Little-endian value of the first 8 bytes (the `u64` header-size field). -/
def le64 (bytes : List Nat) : Nat :=
  ((bytes.take 8).reverse).foldl (fun acc b => acc * 256 + b) 0

/-- The distinguished `"__metadata__"` key. -/
def metadataKey : List Nat := bytesOfAscii "__metadata__"

/-- Tensor directory from the root pairs, in order, skipping `__metadata__`;
any entry `parse_tensor` rejects fails the whole header (lines 892-921). -/
def buildTensors : List (List Nat × JsonValue) → Option (List CsTensor)
  | [] => some []
  | (k, v) :: rest =>
    if strcmpEq k metadataKey then buildTensors rest
    else
      match parse_tensor k v with
      | none => none
      | some t => (buildTensors rest).map (fun l => t :: l)

/-- Metadata entries: from the object value of `__metadata__` (silently absent
when the value is not an object), keeping only string-valued members, keys and
values copied with `strncpy` truncation (lines 896-907). -/
def buildMetadata (pairs : List (List Nat × JsonValue)) : List (List Nat × List Nat) :=
  match json_object_get pairs metadataKey with
  | some (.obj mpairs) =>
    mpairs.filterMap (fun p =>
      match p.2 with
      | .str sv => some (strncpyStore p.1, strncpyStore sv)
      | _ => none)
  | _ => []

/-- Model of `parse_safetensors_header` (lines 805-928): size and header-size
checks in source order, then one JSON value parsed from bytes `[8, 8+H)`
(trailing bytes inside the header window are ignored, as in the source), the
root must be an object, and the directory is built from its pairs. -/
def parse_safetensors_header (data : List Nat) :
    Option (Nat × List CsTensor × List (List Nat × List Nat)) :=
  if data.length < 16 then none
  else
    let H := le64 data
    if H < 2 then none
    else if 104857600 < H then none
    else if data.length < 8 + H then none
    else
      match json_parse_value (3 * H + 8) ((data.drop 8).take H) with
      | none => none
      | some (root, _) =>
        match root with
        | .obj pairs =>
          match buildTensors pairs with
          | none => none
          | some ts => some (H, ts, buildMetadata pairs)
        | _ => none

/-- Error enumeration `csafetensors_error_t`. -/
inductive CsError where
  | invalidArgument | fileNotFound | fileRead | invalidHeader | jsonParse
  | memoryAllocation | mmapFailed | invalidTensor | bufferTooSmall
deriving DecidableEq, Repr

/-- Loaded object `csafetensors_t` (the fields the claims concern).
`data_size` is `storage_size` in copy mode and `databuffer_size` in map mode;
both equal `size - 8 - header_size`. -/
structure Csafetensors where
  tensors : List CsTensor
  metadata : List (List Nat × List Nat)
  header_size : Nat
  data_size : Nat
  mmaped : Bool
deriving DecidableEq, Repr

deriving instance DecidableEq for Except

/-- Model of `csafetensors_load_from_memory` (lines 1007-1033).  The NULL
argument guards and the allocation-failure path are not modelled. -/
def csafetensors_load_from_memory (data : List Nat) : Except CsError Csafetensors :=
  if data.length < 16 then .error .invalidArgument
  else
    match parse_safetensors_header data with
    | none => .error .jsonParse
    | some (h, ts, md) =>
      .ok ⟨ts, md, h, data.length - (8 + h), false⟩

/-- Model of `csafetensors_mmap_from_memory` (lines 1170-1186): identical
checks, map mode, `databuffer_size = size - 8 - header_size`. -/
def csafetensors_mmap_from_memory (data : List Nat) : Except CsError Csafetensors :=
  if data.length < 16 then .error .invalidArgument
  else
    match parse_safetensors_header data with
    | none => .error .jsonParse
    | some (h, ts, md) =>
      .ok ⟨ts, md, h, data.length - (8 + h), true⟩

/-- Model of `csafetensors_get_tensor`: linear `strcmp` scan by name. -/
def csafetensors_get_tensor (st : Csafetensors) (name : List Nat) : Option CsTensor :=
  st.tensors.find? (fun t => strcmpEq t.name name)

/-- Model of `csafetensors_get_metadata`: linear `strcmp` scan by key. -/
def csafetensors_get_metadata (st : Csafetensors) (key : List Nat) : Option (List Nat) :=
  (st.metadata.find? (fun p => strcmpEq p.1 key)).map (fun p => p.2)

/-- Model of `csafetensors_get_tensor_data` (lines 1203-1221): the returned
pointer as an offset from the payload base; `none` is the C `NULL`.  The
`!base` guard (copy-mode `malloc(0)` may return NULL) is not modelled; the
offset check `data_offset_begin > max_size` is. -/
def csafetensors_get_tensor_data (st : Csafetensors) (t : CsTensor) : Option Nat :=
  if st.data_size < t.data_offset_begin then none
  else some t.data_offset_begin

/-- Loop of `csafetensors_shape_size`: running product in `size_t` arithmetic,
early 0 on a zero dimension. -/
def shapeSizeLoop (size : Nat) : List Nat → Nat
  | [] => size
  | d :: rest => if d = 0 then 0 else shapeSizeLoop (size * d % 2 ^ 64) rest

/-- Model of `csafetensors_shape_size` (lines 1271-1281). -/
def csafetensors_shape_size (t : CsTensor) : Nat :=
  if t.shape.length = 0 then 1
  else shapeSizeLoop 1 t.shape

/-- Per-tensor body of the `csafetensors_validate` loop (lines 1293-1317);
`tensor_size` is the `size_t` product `dtype_size * shape_size`. -/
def validateTensor (dataSize : Nat) (t : CsTensor) : Bool :=
  if t.data_offset_end < t.data_offset_begin then false
  else
    let tensorSize := csafetensors_dtype_size t.dtype * csafetensors_shape_size t % 2 ^ 64
    if tensorSize = 0 then true
    else if dataSize < t.data_offset_end then false
    else tensorSize = t.data_offset_end - t.data_offset_begin

/-- Model of `csafetensors_validate` (lines 1283-1320): every tensor passes
its checks (the C loop returns false at the first violation). -/
def csafetensors_validate (st : Csafetensors) : Bool :=
  st.tensors.all (validateTensor st.data_size)

/-! ## Concrete safetensors inputs used by the claims -/

/-- A `u64` as its 8 little-endian bytes. -/
def le64Bytes (n : Nat) : List Nat :=
  [n % 256, n / 256 % 256, n / 65536 % 256, n / 16777216 % 256,
    n / 4294967296 % 256, n / 1099511627776 % 256, n / 281474976710656 % 256,
    n / 72057594037927936 % 256]

/-- A container image: 8-byte header size, ASCII JSON header, zero payload. -/
def mkInput (header : String) (payloadLen : Nat) : List Nat :=
  le64Bytes header.length ++ bytesOfAscii header ++ List.replicate payloadLen 0

/-! ## Claim C2: prefix guards of the loaders -/

/-- C2: `load_from_memory` and `mmap_from_memory` fail with `InvalidArgument`
on buffers below 16 bytes, and when the little-endian `u64` `H` of the first 8
bytes satisfies `H < 2`, `H > 100 MiB`, or `8 + H > size`, they fail (error
`JsonParse`) whatever the remaining bytes hold - the JSON header is never
consulted, so `H = 0xFFFFFFFFFFFFFFFF` is rejected up front (it trips the
100 MiB cap before the `8 + H` comparison could wrap). -/
theorem c2_load_size_and_header_guards (data : List Nat) :
    (data.length < 16 →
      csafetensors_load_from_memory data = .error .invalidArgument ∧
      csafetensors_mmap_from_memory data = .error .invalidArgument) ∧
    (16 ≤ data.length →
      le64 data < 2 ∨ 104857600 < le64 data ∨ data.length < 8 + le64 data →
      csafetensors_load_from_memory data = .error .jsonParse ∧
      csafetensors_mmap_from_memory data = .error .jsonParse) := by
  constructor
  · intro h
    constructor
    · simp only [csafetensors_load_from_memory]
      rw [if_pos h]
    · simp only [csafetensors_mmap_from_memory]
      rw [if_pos h]
  · intro h16 hbad
    have hph : parse_safetensors_header data = none := by
      simp only [parse_safetensors_header]
      split_ifs with h1 h2 h3 h4
      · rfl
      · rfl
      · rfl
      · rfl
      · exfalso; omega
    constructor
    · simp only [csafetensors_load_from_memory, hph]
      rw [if_neg (by omega)]
    · simp only [csafetensors_mmap_from_memory, hph]
      rw [if_neg (by omega)]

/-- Buffer claiming a `0xFFFFFFFFFFFFFFFF`-byte header. -/
def c2bigInput : List Nat := List.replicate 8 255 ++ List.replicate 8 0

/-- A 15-byte buffer. -/
def c2shortInput : List Nat := List.replicate 15 0

/-- Witness for C2: the 15-byte buffer and the all-ones header size. -/
theorem c2_load_size_and_header_guards_witness :
    c2shortInput.length < 16 ∧
    csafetensors_load_from_memory c2shortInput = .error .invalidArgument ∧
    16 ≤ c2bigInput.length ∧ le64 c2bigInput = 18446744073709551615 ∧
    csafetensors_load_from_memory c2bigInput = .error .jsonParse :=
  ⟨by decide, ((c2_load_size_and_header_guards c2shortInput).1 (by decide)).1,
    by decide, by decide,
    ((c2_load_size_and_header_guards c2bigInput).2 (by decide)
      (Or.inr (Or.inl (by decide)))).1⟩

/-! ## Claim C4: `csafetensors_get_tensor_data` -/

/-- Input whose single tensor has `data_offsets` beginning past the 1-byte
payload. -/
def c4input : List Nat :=
  mkInput "\x7b\"t\":\x7b\"dtype\":\"U8\",\"shape\":[4],\"data_offsets\":[100,104]\x7d\x7d" 1

/-- The descriptor `c4input` loads. -/
def c4tensor : CsTensor := ⟨[116], .uint8, [4], 100, 104⟩

/-- The object `c4input` loads. -/
def c4st : Csafetensors := ⟨[c4tensor], [], 57, 1, false⟩

/-- Counterexample to C4 as stated: `csafetensors_get_tensor_data` does NOT
always return `base + offsets.begin` - it re-checks `offsets.begin` against
the payload length and returns NULL (here `none`) when the begin offset
exceeds it, as for this loaded descriptor with `begin = 100` and payload
length 1. -/
theorem c4_counterexample :
    csafetensors_load_from_memory c4input = Except.ok c4st ∧
    csafetensors_get_tensor c4st (bytesOfAscii "t") = some c4tensor ∧
    c4tensor.data_offset_begin = 100 ∧
    csafetensors_get_tensor_data c4st c4tensor = none :=
  ⟨by decide, by decide, by decide, by decide⟩

/-- C4 amended: for every loaded object and descriptor,
`csafetensors_get_tensor_data` returns `base + offsets.begin` whenever
`offsets.begin ≤ payload length` and the absent marker otherwise; only
`offsets.begin` is checked - the result never depends on `offsets.end`, whose
validation is left to `csafetensors_validate`. -/
theorem c4_get_tensor_data_checks_begin_only (data : List Nat) (st : Csafetensors)
    (t : CsTensor) (_hld : csafetensors_load_from_memory data = Except.ok st)
    (_ht : t ∈ st.tensors) :
    (t.data_offset_begin ≤ st.data_size →
      csafetensors_get_tensor_data st t = some t.data_offset_begin) ∧
    (st.data_size < t.data_offset_begin →
      csafetensors_get_tensor_data st t = none) ∧
    (∀ e : Nat,
      csafetensors_get_tensor_data st ⟨t.name, t.dtype, t.shape, t.data_offset_begin, e⟩ =
        csafetensors_get_tensor_data st t) := by
  refine ⟨fun hb => ?_, fun hb => ?_, fun e => ?_⟩ <;>
    simp only [csafetensors_get_tensor_data]
  · rw [if_neg (by omega)]
  · rw [if_pos (by omega)]

/-- Input whose tensor has `offsets.end` past the 2-byte payload but a valid
begin offset. -/
def c4binput : List Nat :=
  mkInput "\x7b\"t\":\x7b\"dtype\":\"U8\",\"shape\":[4],\"data_offsets\":[0,4]\x7d\x7d" 2

/-- The descriptor `c4binput` loads. -/
def c4btensor : CsTensor := ⟨[116], .uint8, [4], 0, 4⟩

/-- The object `c4binput` loads. -/
def c4bst : Csafetensors := ⟨[c4btensor], [], 53, 2, false⟩

/-- Witness for the amended C4: on a loaded object failing offset validation
(end offset 4 > payload length 2), the data pointer is still handed out
because only the begin offset is checked. -/
theorem c4_get_tensor_data_checks_begin_only_witness :
    csafetensors_load_from_memory c4binput = Except.ok c4bst ∧
    csafetensors_validate c4bst = false ∧
    csafetensors_get_tensor_data c4bst c4btensor = some 0 :=
  ⟨by decide, by decide,
    ((c4_get_tensor_data_checks_begin_only c4binput c4bst c4btensor (by decide)
      (by decide)).1 (by decide))⟩

/-! ## Claim C3: shape and offset numbers are cast, not validated -/

/-- Input whose tensor has the non-integral shape dimension `1.5`. -/
def c3input : List Nat :=
  mkInput "\x7b\"t\":\x7b\"dtype\":\"F32\",\"shape\":[1.5],\"data_offsets\":[0,4]\x7d\x7d" 4

/-- The descriptor `c3input` loads: the `1.5` was truncated to `1`. -/
def c3tensor : CsTensor := ⟨[116], .float32, [1], 0, 4⟩

/-- The object `c3input` loads. -/
def c3st : Csafetensors := ⟨[c3tensor], [], 56, 4, false⟩

/-- Counterexample to C3 as stated: a non-integral `"shape"` element does NOT
cause the load to fail - the input with shape `[1.5]` loads successfully and
the value is cast to the unsigned integer 1. -/
theorem c3_counterexample :
    csafetensors_load_from_memory c3input = Except.ok c3st ∧
    c3st.tensors = [c3tensor] ∧ c3tensor.shape = [1] :=
  ⟨by decide, by decide, by decide⟩

/-- Input whose tensor carries the non-integral offsets `[0.5, 4.5]`. -/
def c3binput : List Nat :=
  mkInput "\x7b\"t\":\x7b\"dtype\":\"U8\",\"shape\":[4],\"data_offsets\":[0.5,4.5]\x7d\x7d" 4

/-- The descriptor `c3binput` loads: offsets truncated to `(0, 4)`. -/
def c3btensor : CsTensor := ⟨[116], .uint8, [4], 0, 4⟩

/-- The object `c3binput` loads. -/
def c3bst : Csafetensors := ⟨[c3btensor], [], 57, 4, false⟩

/-- C3 amended: the parser performs no integrality or range validation of
`"shape"` and `"data_offsets"` numbers - every JSON number is accepted and
cast to `size_t` by `castSizeT` (truncation: `3/2` becomes 1, offsets
`[0.5, 4.5]` become `(0, 4)`, and `2^63`, far above `2^53`, is stored
exactly); only non-number JSON values are rejected.  (For a negative number
the C cast is undefined behaviour rather than a clean rejection.) -/
theorem c3_shape_numbers_cast_not_rejected :
    (∀ q : ℚ, shapeDims [.num q] = some [castSizeT q]) ∧
    (∀ q : ℚ, ∀ rest : List JsonValue, shapeDims (.num q :: rest) =
      (shapeDims rest).map (fun l => castSizeT q :: l)) ∧
    castSizeT (mkRat 3 2) = 1 ∧
    castSizeT ((9223372036854775808 : ℚ)) = 9223372036854775808 ∧
    csafetensors_load_from_memory c3input = Except.ok c3st ∧
    c3st.tensors = [c3tensor] ∧
    csafetensors_load_from_memory c3binput = Except.ok c3bst :=
  ⟨fun _ => rfl, fun _ _ => rfl, by decide, by decide, by decide, by decide, by decide⟩

/-! ## Claim C10: element count and byte size wrap modulo 2^64 -/

/-- Loop invariant of `csafetensors_shape_size`: the running `size_t` product
is the true product reduced modulo `2^64`. -/
theorem shapeSizeLoop_eq (l : List Nat) :
    ∀ acc, acc < 2 ^ 64 → shapeSizeLoop acc l = acc * l.prod % 2 ^ 64 := by
  induction l with
  | nil =>
    intro acc h
    simp only [shapeSizeLoop, List.prod_nil, Nat.mul_one]
    omega
  | cons d rest ih =>
    intro acc h
    by_cases hd : d = 0
    · subst hd
      simp [shapeSizeLoop]
    · rw [shapeSizeLoop, if_neg hd, ih _ (Nat.mod_lt _ (by norm_num)), List.prod_cons]
      conv_rhs => rw [← Nat.mul_assoc]
      rw [Nat.mod_mul_mod]

/-- The shape size is the mathematical product of the dimensions mod `2^64`
(1 for a scalar, 0 when a dimension is 0). -/
theorem csafetensors_shape_size_eq_prod_mod (t : CsTensor) :
    csafetensors_shape_size t = t.shape.prod % 2 ^ 64 := by
  unfold csafetensors_shape_size
  by_cases h : t.shape.length = 0
  · rw [if_pos h, List.length_eq_zero.mp h]
    norm_num
  · rw [if_neg h, shapeSizeLoop_eq _ 1 (by norm_num), Nat.one_mul]

/-- Input whose tensor has `F16` dtype and shape `[2^63]`: the true byte size
is `2^64`, which wraps to 0 in the `size_t` multiplication. -/
def c10input : List Nat :=
  mkInput "\x7b\"t\":\x7b\"dtype\":\"F16\",\"shape\":[9223372036854775808],\"data_offsets\":[0,0]\x7d\x7d" 0

/-- The descriptor `c10input` loads. -/
def c10tensor : CsTensor := ⟨[116], .float16, [9223372036854775808], 0, 0⟩

/-- The object `c10input` loads. -/
def c10st : Csafetensors := ⟨[c10tensor], [], 72, 0, false⟩

/-- C10: the element count is the product of the dimensions modulo `2^64` and
validation multiplies by the dtype size modulo `2^64`; for the loaded
descriptor with true byte size `2 * 2^63 = 2^64` the computed byte size wraps
to 0, so `csafetensors_validate` returns true although the mathematical byte
size exceeds the (empty) payload. -/
theorem c10_byte_size_wraps_mod_2_64 :
    (∀ t : CsTensor, csafetensors_shape_size t = t.shape.prod % 2 ^ 64) ∧
    csafetensors_load_from_memory c10input = Except.ok c10st ∧
    2 ^ 64 ≤ csafetensors_dtype_size c10tensor.dtype * c10tensor.shape.prod ∧
    c10st.data_size < csafetensors_dtype_size c10tensor.dtype * c10tensor.shape.prod ∧
    csafetensors_dtype_size c10tensor.dtype * csafetensors_shape_size c10tensor % 2 ^ 64 = 0 ∧
    csafetensors_validate c10st = true :=
  ⟨csafetensors_shape_size_eq_prod_mod, by decide, by decide, by decide, by decide, by decide⟩

/-! ## Claim C1: what `csafetensors_validate` actually checks -/

/-- Offset property of claim C1 read with the mathematical byte size
(`element_count × dtype_size` over the integers, a tensor being non-empty
when no dimension is 0). -/
def mathOffsetsProp (st : Csafetensors) : Prop :=
  ∀ t ∈ st.tensors, ¬ 0 ∈ t.shape →
    t.data_offset_begin ≤ t.data_offset_end ∧
    t.data_offset_end ≤ st.data_size ∧
    t.data_offset_end - t.data_offset_begin = t.shape.prod * csafetensors_dtype_size t.dtype

instance (st : Csafetensors) : Decidable (mathOffsetsProp st) := by
  unfold mathOffsetsProp
  infer_instance

/-- Input whose tensor has shape `[2^32, 2^32]` (true element count `2^64`,
wrapping to 0) and offsets `[0, 0]` over an empty payload. -/
def c1input : List Nat :=
  mkInput "\x7b\"t\":\x7b\"dtype\":\"U8\",\"shape\":[4294967296,4294967296],\"data_offsets\":[0,0]\x7d\x7d" 0

/-- The descriptor `c1input` loads. -/
def c1tensor : CsTensor := ⟨[116], .uint8, [4294967296, 4294967296], 0, 0⟩

/-- The object `c1input` loads. -/
def c1st : Csafetensors := ⟨[c1tensor], [], 73, 0, false⟩

/-- Counterexample to C1 as stated: for this successfully loaded object
`csafetensors_validate` returns true, yet its non-empty tensor (no zero
dimension) has `offsets.end - offsets.begin = 0`, which differs from the
mathematical `byte_size = element_count × dtype_size = 2^64` - the claimed
equivalence fails because validation computes the byte size in wrapping
`size_t` arithmetic. -/
theorem c1_counterexample :
    csafetensors_load_from_memory c1input = Except.ok c1st ∧
    csafetensors_validate c1st = true ∧
    ¬ mathOffsetsProp c1st :=
  ⟨by decide, by decide, by decide⟩

/-- The byte size as `csafetensors_validate` computes it: element count and
the product with the dtype size both taken modulo `2^64`. -/
def computedByteSize (t : CsTensor) : Nat :=
  csafetensors_dtype_size t.dtype * csafetensors_shape_size t % 2 ^ 64

/-- Per-tensor characterisation of the `csafetensors_validate` loop body. -/
theorem validateTensor_eq_true_iff (ds : Nat) (t : CsTensor) :
    validateTensor ds t = true ↔
      t.data_offset_begin ≤ t.data_offset_end ∧
      (computedByteSize t = 0 ∨
        (t.data_offset_end ≤ ds ∧
          t.data_offset_end - t.data_offset_begin = computedByteSize t)) := by
  unfold validateTensor computedByteSize
  split_ifs with h1 h2 <;> simp <;> omega


/-- C1 amended: for every successfully loaded object, `csafetensors_validate`
returns true iff every tensor satisfies `offsets.begin ≤ offsets.end`, and
every tensor whose byte size computed in `size_t` arithmetic
(`element_count`, taken modulo `2^64`, times `dtype_size`, modulo `2^64`) is
non-zero additionally satisfies `offsets.end ≤ payload length` and
`offsets.end - offsets.begin = computed byte_size`; tensors whose computed
byte size is 0 (truly empty ones, and those whose true byte size wraps to 0)
are skipped.  In particular a load whose payload is shorter than the largest
`offsets.end` still succeeds, and only this validation pass reports it. -/
theorem c1_validate_iff (data : List Nat) (st : Csafetensors)
    (_hld : csafetensors_load_from_memory data = Except.ok st) :
    csafetensors_validate st = true ↔
      (∀ t ∈ st.tensors, t.data_offset_begin ≤ t.data_offset_end) ∧
      (∀ t ∈ st.tensors, computedByteSize t ≠ 0 →
        t.data_offset_end ≤ st.data_size ∧
        t.data_offset_end - t.data_offset_begin = computedByteSize t) := by
  unfold csafetensors_validate
  rw [List.all_eq_true]
  constructor
  · intro h
    constructor
    · intro t ht
      exact ((validateTensor_eq_true_iff st.data_size t).mp (h t ht)).1
    · intro t ht hnz
      rcases ((validateTensor_eq_true_iff st.data_size t).mp (h t ht)).2 with h0 | h2
      · exact absurd h0 hnz
      · exact h2
  · rintro ⟨hb, hrest⟩ t ht
    rw [validateTensor_eq_true_iff]
    refine ⟨hb t ht, ?_⟩
    by_cases hz : computedByteSize t = 0
    · exact Or.inl hz
    · exact Or.inr (hrest t ht hz)

/-- Scenario S5 of the specification: 4-element `F32` tensor whose offsets
cover 8 bytes over a 16-byte payload. -/
def s5input : List Nat :=
  mkInput "\x7b\"test\":\x7b\"dtype\":\"F32\",\"shape\":[4],\"data_offsets\":[0,8]\x7d\x7d" 16

/-- The descriptor `s5input` loads. -/
def s5tensor : CsTensor := ⟨[116, 101, 115, 116], .float32, [4], 0, 8⟩

/-- The object `s5input` loads. -/
def s5st : Csafetensors := ⟨[s5tensor], [], 57, 16, false⟩

/-- Witness for the amended C1: the size-mismatch scenario loads fine, the
equivalence applies to it, and validation indeed reports false (the computed
byte size 16 differs from the stored 8). -/
theorem c1_validate_iff_witness :
    csafetensors_load_from_memory s5input = Except.ok s5st ∧
    (csafetensors_validate s5st = true ↔
      (∀ t ∈ s5st.tensors, t.data_offset_begin ≤ t.data_offset_end) ∧
      (∀ t ∈ s5st.tensors, computedByteSize t ≠ 0 →
        t.data_offset_end ≤ s5st.data_size ∧
        t.data_offset_end - t.data_offset_begin = computedByteSize t)) ∧
    csafetensors_validate s5st = false :=
  ⟨by decide, c1_validate_iff s5input s5st (by decide), by decide⟩

/-! ## Claim C5: `data_offsets` discipline for empty and non-empty tensors -/

/-- A zero dimension zeroes the running product of `csafetensors_shape_size`. -/
theorem shapeSizeLoop_of_mem_zero (l : List Nat) (h : 0 ∈ l) :
    ∀ acc, shapeSizeLoop acc l = 0 := by
  induction l with
  | nil => cases h
  | cons d rest ih =>
    intro acc
    by_cases hd : d = 0
    · subst hd
      simp [shapeSizeLoop]
    · rcases List.mem_cons.mp h with h0 | h0
      · exact absurd h0.symm hd
      · rw [shapeSizeLoop, if_neg hd]
        exact ih h0 _

/-- C5: in `parse_tensor`, given a well-formed `dtype` and `shape` (array of
at most 8 numbers), an entry whose cast shape contains a zero dimension is
accepted iff `"data_offsets"` is absent - and then both offsets default to 0
and the tensor's byte size (`dtype_size * shape_size`) is 0 - while an entry
with no zero dimension is accepted iff `"data_offsets"` is an array of
exactly two numbers. -/
theorem c5_empty_tensor_offsets (name ds : List Nat)
    (pairs : List (List Nat × JsonValue)) (items : List JsonValue) (dt : CsDtype)
    (dims : List Nat)
    (hdt : json_object_get pairs (bytesOfAscii "dtype") = some (.str ds))
    (hdt2 : parse_dtype_string ds = some dt)
    (hsh : json_object_get pairs (bytesOfAscii "shape") = some (.arr items))
    (hlen : items.length ≤ 8)
    (hdims : shapeDims items = some dims) :
    (0 ∈ dims →
      ((∃ t, parse_tensor name (.obj pairs) = some t) ↔
        json_object_get pairs (bytesOfAscii "data_offsets") = none) ∧
      (json_object_get pairs (bytesOfAscii "data_offsets") = none →
        parse_tensor name (.obj pairs) = some ⟨strncpyStore name, dt, dims, 0, 0⟩ ∧
        csafetensors_dtype_size dt *
          csafetensors_shape_size ⟨strncpyStore name, dt, dims, 0, 0⟩ = 0)) ∧
    (¬ 0 ∈ dims →
      ((∃ t, parse_tensor name (.obj pairs) = some t) ↔
        ∃ qb qe, json_object_get pairs (bytesOfAscii "data_offsets") =
          some (.arr [.num qb, .num qe]))) := by
  have hbody : parse_tensor name (.obj pairs) =
      match json_object_get pairs (bytesOfAscii "data_offsets"),
          dims.any (fun d => d = 0) with
      | some _, true => none
      | none, true => some ⟨strncpyStore name, dt, dims, 0, 0⟩
      | some (.arr [.num qb, .num qe]), false =>
        some ⟨strncpyStore name, dt, dims, castSizeT qb, castSizeT qe⟩
      | _, _ => none := by
    simp only [parse_tensor, hdt, hdt2, hsh, hdims,
      if_neg (show ¬ 8 < items.length by omega)]
  constructor
  · intro hz
    have hzb : dims.any (fun d => d = 0) = true := by
      rw [List.any_eq_true]
      exact ⟨0, hz, by simp⟩
    rw [hzb] at hbody
    constructor
    · constructor
      · rintro ⟨t, ht⟩
        rw [hbody] at ht
        split at ht <;>
          first
            | exact Bool.noConfusion (show true = false by assumption)
            | exact Bool.noConfusion (show false = true by assumption)
            | assumption
            | cases ht
      · intro hoff
        rw [hoff] at hbody
        exact ⟨_, hbody⟩
    · intro hoff
      rw [hoff] at hbody
      refine ⟨hbody, ?_⟩
      have hne : dims ≠ [] := by
        intro hh
        rw [hh] at hz
        cases hz
      unfold csafetensors_shape_size
      rw [if_neg (by simpa using hne), shapeSizeLoop_of_mem_zero dims hz 1]
      simp
  · intro hz
    have hzb : dims.any (fun d => d = 0) = false := by
      rw [List.any_eq_false]
      intro d hd
      simp only [decide_eq_true_eq]
      intro h0
      exact hz (h0 ▸ hd)
    rw [hzb] at hbody
    constructor
    · rintro ⟨t, ht⟩
      rw [hbody] at ht
      split at ht <;>
        first
          | exact Bool.noConfusion (show true = false by assumption)
          | exact Bool.noConfusion (show false = true by assumption)
          | exact ⟨_, _, by assumption⟩
          | cases ht
    · rintro ⟨qb, qe, hoff⟩
      rw [hoff] at hbody
      exact ⟨_, hbody⟩

/-- The `__metadata__`-free pairs of an `S4`-style empty tensor entry. -/
def c5pairs : List (List Nat × JsonValue) :=
  [(bytesOfAscii "dtype", .str (bytesOfAscii "F32")),
    (bytesOfAscii "shape", .arr [.num 0, .num 10])]

/-- Witness for C5 at scenario S4: shape `[0, 10]` with no `data_offsets`
parses to offsets `(0, 0)` and byte size 0. -/
theorem c5_empty_tensor_offsets_witness :
    parse_tensor (bytesOfAscii "e") (.obj c5pairs) =
      some ⟨strncpyStore (bytesOfAscii "e"), .float32, [0, 10], 0, 0⟩ ∧
    csafetensors_dtype_size .float32 *
      csafetensors_shape_size ⟨strncpyStore (bytesOfAscii "e"), .float32, [0, 10], 0, 0⟩ = 0 :=
  (c5_empty_tensor_offsets (bytesOfAscii "e") (bytesOfAscii "F32") c5pairs
    [.num 0, .num 10] .float32 [0, 10] rfl (by decide) rfl
    (by decide) (by decide)).1 (by decide) |>.2 rfl

/-! ## Long names: symbolic evaluation lemmas

`jpslF`, `upToNul` and list equality walk the input byte by byte, so a
concrete 4096-byte name cannot be evaluated term by term; these lemmas step
over a `List.replicate` block symbolically. -/

theorem jpslF_step97 (f : Nat) (acc rest : List Nat) :
    jpslF (f + 1) acc (97 :: rest) = jpslF f (97 :: acc) rest := by
  simp only [jpslF]
  norm_num

theorem jpslF_step98 (f : Nat) (acc rest : List Nat) :
    jpslF (f + 1) acc (98 :: rest) = jpslF f (98 :: acc) rest := by
  simp only [jpslF]
  norm_num

theorem jpslF_step99 (f : Nat) (acc rest : List Nat) :
    jpslF (f + 1) acc (99 :: rest) = jpslF f (99 :: acc) rest := by
  simp only [jpslF]
  norm_num

theorem jpslF_step100 (f : Nat) (acc rest : List Nat) :
    jpslF (f + 1) acc (100 :: rest) = jpslF f (100 :: acc) rest := by
  simp only [jpslF]
  norm_num

theorem jpslF_step101 (f : Nat) (acc rest : List Nat) :
    jpslF (f + 1) acc (101 :: rest) = jpslF f (101 :: acc) rest := by
  simp only [jpslF]
  norm_num

theorem jpslF_quote (f : Nat) (acc rest : List Nat) :
    jpslF (f + 1) acc (34 :: rest) = some (acc.reverse, rest) := by
  simp only [jpslF]
  norm_num

theorem replicate_cons_comm (m a : Nat) (t : List Nat) :
    List.replicate m a ++ (a :: t) = a :: (List.replicate m a ++ t) := by
  rw [show a :: (List.replicate m a ++ t) = (a :: List.replicate m a) ++ t from rfl,
    ← List.replicate_succ, List.replicate_succ', List.append_assoc]
  rfl

theorem jpslF_replicate (n f : Nat) (acc t : List Nat) :
    jpslF (n + f) acc (List.replicate n 97 ++ t) =
      jpslF f (List.replicate n 97 ++ acc) t := by
  induction n generalizing acc with
  | zero => simp
  | succ m ih =>
    rw [show m + 1 + f = (m + f) + 1 by omega, List.replicate_succ, List.cons_append,
      jpslF_step97, ih]
    congr 1
    exact replicate_cons_comm m 97 acc

theorem jpsl_long_name (n last : Nat) (s : List Nat)
    (hstep : ∀ g A rest, jpslF (g + 1) A (last :: rest) = jpslF g (last :: A) rest) :
    json_parse_string_loop [] (List.replicate n 97 ++ (last :: (34 :: s))) =
      some (List.replicate n 97 ++ [last], s) := by
  have hl : (List.replicate n 97 ++ (last :: (34 :: s))).length = n + (s.length + 2) := by
    simp only [List.length_append, List.length_replicate, List.length_cons]
  rw [json_parse_string_loop, hl, jpslF_replicate, hstep, jpslF_quote]
  simp

theorem upToNul_cons97 (s : List Nat) : upToNul (97 :: s) = 97 :: upToNul s := by
  simp [upToNul, List.takeWhile_cons]

theorem upToNul_replicate (n : Nat) (t : List Nat) :
    upToNul (List.replicate n 97 ++ t) = List.replicate n 97 ++ upToNul t := by
  induction n with
  | zero => simp only [List.replicate_zero, List.nil_append]
  | succ m ih =>
    rw [List.replicate_succ, List.cons_append, upToNul_cons97, ih, ← List.cons_append,
      ← List.replicate_succ]

theorem strncpyStore_rep_last (last : Nat) (h0 : last ≠ 0) :
    strncpyStore (List.replicate 4095 97 ++ [last]) = List.replicate 4095 97 := by
  rw [strncpyStore, upToNul_replicate]
  rw [show upToNul [last] = [last] by simp [upToNul, h0]]
  rw [List.take_append_of_le_length (by rw [List.length_replicate]), List.take_replicate]
  norm_num

theorem replicate_append_last_ne (n x y : Nat) (hxy : x ≠ y) :
    List.replicate n 97 ++ [x] ≠ List.replicate n 97 ++ [y] := by
  intro h
  have h2 := congrArg (List.drop (List.replicate n 97).length) h
  rw [List.drop_left, List.drop_left] at h2
  injection h2 with h3 h4
  exact hxy h3

theorem ne_of_length_ne {l1 l2 : List Nat} (h : l1.length ≠ l2.length) : l1 ≠ l2 :=
  fun he => h (he ▸ rfl)

/-! ## Long-name container inputs -/

/-- The bytes of `{"dtype":"U8","shape":[0]}`, the tensor entry the long-name
inputs attach to every name. -/
def innerBytes : List Nat :=
  [123, 34, 100, 116, 121, 112, 101, 34, 58, 34, 85, 56, 34, 44, 34, 115, 104, 97, 112,
    101, 34, 58, 91, 48, 93, 125]

/-- The parsed value of `innerBytes`. -/
def innerVal : JsonValue :=
  .obj [([100, 116, 121, 112, 101], .str [85, 56]), ([115, 104, 97, 112, 101], .arr [.num 0])]

theorem inner_parse (g : Nat) (s : List Nat) :
    json_parse_value (g + 8) (innerBytes ++ s) = some (innerVal, s) := by
  simp [innerBytes, innerVal, json_parse_value, json_parse_object, json_parse_object_items,
    json_parse_array, json_parse_array_items, json_parse_string_loop, jpslF, uEscape,
    jsonSkipWs, json_parse_number, takeDigits, digitsVal, decimalValue, strcmpEq, upToNul]

/-- Header of `c6input`: two tensor entries whose 4096-byte names differ only
in their last byte (`b` vs `c`). -/
def c6header : List Nat :=
  123 :: 34 :: (List.replicate 4095 97 ++ (98 :: 34 :: 58 :: (innerBytes ++
    (44 :: 34 :: (List.replicate 4095 97 ++ (99 :: 34 :: 58 :: (innerBytes ++ [125])))))))

theorem c6header_parse (f : Nat) :
    json_parse_value (f + 12) c6header =
      some (.obj [(List.replicate 4095 97 ++ [98], innerVal),
        (List.replicate 4095 97 ++ [99], innerVal)], []) := by
  have hk98 : ∀ s, json_parse_string_loop [] (List.replicate 4095 97 ++ (98 :: (34 :: s))) =
      some (List.replicate 4095 97 ++ [98], s) :=
    fun s => jpsl_long_name 4095 98 s jpslF_step98
  have hk99 : ∀ s, json_parse_string_loop [] (List.replicate 4095 97 ++ (99 :: (34 :: s))) =
      some (List.replicate 4095 97 ++ [99], s) :=
    fun s => jpsl_long_name 4095 99 s jpslF_step99
  have hne : strcmpEq (List.replicate 4095 97 ++ [98]) (List.replicate 4095 97 ++ [99]) =
      false := by
    rw [strcmpEq, upToNul_replicate, upToNul_replicate]
    rw [show upToNul [98] = [98] by decide, show upToNul [99] = [99] by decide]
    exact beq_eq_false_iff_ne.mpr (replicate_append_last_ne 4095 98 99 (by decide))
  obtain ⟨R, hR⟩ : ∃ R, List.replicate 4095 97 = R := ⟨_, rfl⟩
  rw [hR] at hk98 hk99 hne
  simp only [c6header]
  rw [hR]
  simp [json_parse_value, json_parse_object, jsonSkipWs]
  simp [json_parse_object_items, jsonSkipWs, hk98, hk99, inner_parse, hne]

theorem c6header_len : c6header.length = 8253 := by
  simp only [c6header, innerBytes, List.length_cons, List.length_nil, List.length_append,
    List.length_replicate]

/-- The container image for C6: 8-byte size field (8253 little-endian), the
two-entry header, empty payload. -/
def c6input : List Nat := [61, 32, 0, 0, 0, 0, 0, 0] ++ c6header

/-- The tensor both entries of `c6input` collapse to after `strncpy` truncation. -/
def c6tensor : CsTensor := ⟨List.replicate 4095 97, .uint8, [0], 0, 0⟩

/-- The object `c6input` loads. -/
def c6st : Csafetensors := ⟨[c6tensor, c6tensor], [], 8253, 0, false⟩

theorem strcmp_rep_last_mk (last : Nat) (h0 : last ≠ 0) :
    strcmpEq (List.replicate 4095 97 ++ [last]) metadataKey = false := by
  rw [strcmpEq, upToNul_replicate]
  rw [show upToNul [last] = [last] by simp [upToNul, h0]]
  rw [show upToNul metadataKey = metadataKey by decide]
  refine beq_eq_false_iff_ne.mpr (ne_of_length_ne ?_)
  have hm : metadataKey.length = 12 := by decide
  rw [List.length_append, List.length_replicate, List.length_cons, List.length_nil, hm]
  decide

theorem parse_tensor_inner (last : Nat) (h0 : last ≠ 0) :
    parse_tensor (List.replicate 4095 97 ++ [last]) innerVal =
      some ⟨List.replicate 4095 97, .uint8, [0], 0, 0⟩ := by
  have h1 : json_object_get [(([100, 116, 121, 112, 101] : List Nat), JsonValue.str [85, 56]),
      ([115, 104, 97, 112, 101], JsonValue.arr [JsonValue.num 0])] (bytesOfAscii "dtype") =
      some (.str [85, 56]) := rfl
  have h2 : json_object_get [(([100, 116, 121, 112, 101] : List Nat), JsonValue.str [85, 56]),
      ([115, 104, 97, 112, 101], JsonValue.arr [JsonValue.num 0])] (bytesOfAscii "shape") =
      some (.arr [.num 0]) := rfl
  have h3 : json_object_get [(([100, 116, 121, 112, 101] : List Nat), JsonValue.str [85, 56]),
      ([115, 104, 97, 112, 101], JsonValue.arr [JsonValue.num 0])]
      (bytesOfAscii "data_offsets") = none := rfl
  have h4 : parse_dtype_string [85, 56] = some CsDtype.uint8 := by decide
  have h5 : shapeDims [JsonValue.num 0] = some [0] := by decide
  have hs := strncpyStore_rep_last last h0
  obtain ⟨R, hR⟩ : ∃ R, List.replicate 4095 97 = R := ⟨_, rfl⟩
  rw [hR] at hs ⊢
  simp [parse_tensor, innerVal, h1, h2, h3, h4, h5, hs]

theorem c6_buildTensors :
    buildTensors [(List.replicate 4095 97 ++ [98], innerVal),
      (List.replicate 4095 97 ++ [99], innerVal)] = some [c6tensor, c6tensor] := by
  have hm98 := strcmp_rep_last_mk 98 (by decide)
  have hm99 := strcmp_rep_last_mk 99 (by decide)
  have hp98 := parse_tensor_inner 98 (by decide)
  have hp99 := parse_tensor_inner 99 (by decide)
  obtain ⟨R, hR⟩ : ∃ R, List.replicate 4095 97 = R := ⟨_, rfl⟩
  simp only [c6tensor]
  rw [hR] at hm98 hm99 hp98 hp99 ⊢
  simp [buildTensors, hm98, hm99, hp98, hp99]

theorem c6_buildMetadata :
    buildMetadata [(List.replicate 4095 97 ++ [98], innerVal),
      (List.replicate 4095 97 ++ [99], innerVal)] = [] := by
  have hm98 := strcmp_rep_last_mk 98 (by decide)
  have hm99 := strcmp_rep_last_mk 99 (by decide)
  obtain ⟨R, hR⟩ : ∃ R, List.replicate 4095 97 = R := ⟨_, rfl⟩
  rw [hR] at hm98 hm99 ⊢
  simp [buildMetadata, json_object_get, hm98, hm99]

theorem c6load : csafetensors_load_from_memory c6input = Except.ok c6st := by
  have hlen : c6input.length = 8261 := by
    simp only [c6input, List.length_append, c6header_len, List.length_cons, List.length_nil]
  have hle : le64 c6input = 8253 := by
    simp only [le64, c6input, List.cons_append, List.nil_append, List.take_succ_cons,
      List.take_zero]
    decide
  have hdrop : c6input.drop 8 = c6header := by
    simp only [c6input, List.cons_append, List.nil_append, List.drop_succ_cons, List.drop_zero]
  have htake : c6header.take 8253 = c6header := by
    rw [← c6header_len, List.take_length]
  have hparse := c6header_parse 24755
  have hbt := c6_buildTensors
  have hbm := c6_buildMetadata
  have hguard : ((8261 : Nat) < 16) = False := by norm_num
  simp only [csafetensors_load_from_memory, hlen, hguard, if_false]
  simp only [parse_safetensors_header, hle, hdrop, htake, hlen, hguard,
    show ((8253 : Nat) < 2) = False by norm_num,
    show ((104857600 : Nat) < 8253) = False by norm_num,
    show ((8261 : Nat) < 8 + 8253) = False by norm_num, if_false]
  simp only [show (3 * 8253 + 8 : Nat) = 24755 + 12 by norm_num, hparse]
  simp only [hbt, hbm, c6st, c6tensor, show (8261 : Nat) - (8 + 8253) = 0 by norm_num]

/-! ## C9 input: one long tensor name plus long metadata value -/

theorem strcmp_mdlit_rep_last (last : Nat) :
    strcmpEq [95, 95, 109, 101, 116, 97, 100, 97, 116, 97, 95, 95]
      (List.replicate 4095 97 ++ [last]) = false := by
  rw [strcmpEq, upToNul_replicate]
  rw [show upToNul [95, 95, 109, 101, 116, 97, 100, 97, 116, 97, 95, 95] =
    [95, 95, 109, 101, 116, 97, 100, 97, 116, 97, 95, 95] by decide]
  refine beq_eq_false_iff_ne.mpr (ne_of_length_ne ?_)
  rw [List.length_append, List.length_replicate,
    show ([95, 95, 109, 101, 116, 97, 100, 97, 116, 97, 95, 95] : List Nat).length = 12
      by decide]
  omega

theorem jpsl_k (s : List Nat) :
    json_parse_string_loop [] (107 :: 34 :: s) = some ([107], s) := by
  simp [json_parse_string_loop, jpslF]

theorem jpsl_mdkey (s : List Nat) :
    json_parse_string_loop []
      (95 :: 95 :: 109 :: 101 :: 116 :: 97 :: 100 :: 97 :: 116 :: 97 :: 95 :: 95 :: 34 :: s) =
      some ([95, 95, 109, 101, 116, 97, 100, 97, 116, 97, 95, 95], s) := by
  simp [json_parse_string_loop, jpslF]

theorem kv_obj_parse (g : Nat) (val w s : List Nat)
    (hw : json_parse_string_loop [] w = some (val, 125 :: s)) :
    json_parse_value (g + 4) (123 :: 34 :: 107 :: 34 :: 58 :: 34 :: w) =
      some (.obj [([107], .str val)], s) := by
  simp [json_parse_value, json_parse_object, json_parse_object_items, jsonSkipWs, jpsl_k, hw]

/-- Header of `c9input`: a long metadata value under key `k` and one tensor
entry with a 4096-byte name. -/
def c9header : List Nat :=
  123 :: 34 :: 95 :: 95 :: 109 :: 101 :: 116 :: 97 :: 100 :: 97 :: 116 :: 97 :: 95 :: 95 ::
    34 :: 58 :: 123 :: 34 :: 107 :: 34 :: 58 :: 34 ::
    (List.replicate 4095 97 ++ (100 :: 34 :: 125 :: 44 :: 34 ::
      (List.replicate 4095 97 ++ (101 :: 34 :: 58 :: (innerBytes ++ [125])))))

theorem c9header_parse (f : Nat) :
    json_parse_value (f + 12) c9header =
      some (.obj [([95, 95, 109, 101, 116, 97, 100, 97, 116, 97, 95, 95],
          .obj [([107], .str (List.replicate 4095 97 ++ [100]))]),
        (List.replicate 4095 97 ++ [101], innerVal)], []) := by
  have hk100 : ∀ s, json_parse_string_loop [] (List.replicate 4095 97 ++ (100 :: (34 :: s))) =
      some (List.replicate 4095 97 ++ [100], s) :=
    fun s => jpsl_long_name 4095 100 s jpslF_step100
  have hk101 : ∀ s, json_parse_string_loop [] (List.replicate 4095 97 ++ (101 :: (34 :: s))) =
      some (List.replicate 4095 97 ++ [101], s) :=
    fun s => jpsl_long_name 4095 101 s jpslF_step101
  have hdup := strcmp_mdlit_rep_last 101
  obtain ⟨R, hR⟩ : ∃ R, List.replicate 4095 97 = R := ⟨_, rfl⟩
  rw [hR] at hk100 hk101 hdup
  simp only [c9header]
  rw [hR]
  have hkv : ∀ g, json_parse_value (g + 4) (123 :: 34 :: 107 :: 34 :: 58 :: 34 ::
      (R ++ (100 :: 34 :: 125 :: 44 :: 34 ::
        (R ++ (101 :: 34 :: 58 :: (innerBytes ++ [125])))))) =
      some (.obj [([107], .str (R ++ [100]))],
        44 :: 34 :: (R ++ (101 :: 34 :: 58 :: (innerBytes ++ [125])))) :=
    fun g => kv_obj_parse g (R ++ [100]) _ _ (hk100 _)
  simp [json_parse_value, json_parse_object, jsonSkipWs]
  simp [json_parse_object_items, jsonSkipWs, jpsl_mdkey, hkv, hk101, inner_parse, hdup]

theorem c9header_len : c9header.length = 8247 := by
  simp only [c9header, innerBytes, List.length_cons, List.length_nil, List.length_append,
    List.length_replicate]

/-- The container image for C9. -/
def c9input : List Nat := [55, 32, 0, 0, 0, 0, 0, 0] ++ c9header

/-- The tensor stored for the 4096-byte name of `c9input`. -/
def c9tensor : CsTensor := ⟨List.replicate 4095 97, .uint8, [0], 0, 0⟩

/-- The object `c9input` loads: name and metadata value truncated to 4095 bytes. -/
def c9st : Csafetensors := ⟨[c9tensor], [([107], List.replicate 4095 97)], 8247, 0, false⟩

theorem c9_buildTensors :
    buildTensors [([95, 95, 109, 101, 116, 97, 100, 97, 116, 97, 95, 95],
        JsonValue.obj [([107], .str (List.replicate 4095 97 ++ [100]))]),
      (List.replicate 4095 97 ++ [101], innerVal)] = some [c9tensor] := by
  have hmd : strcmpEq [95, 95, 109, 101, 116, 97, 100, 97, 116, 97, 95, 95] metadataKey =
      true := by decide
  have hm101 := strcmp_rep_last_mk 101 (by decide)
  have hp101 := parse_tensor_inner 101 (by decide)
  obtain ⟨R, hR⟩ : ∃ R, List.replicate 4095 97 = R := ⟨_, rfl⟩
  simp only [c9tensor]
  rw [hR] at hm101 hp101 ⊢
  simp [buildTensors, hmd, hm101, hp101]

theorem c9_buildMetadata :
    buildMetadata [([95, 95, 109, 101, 116, 97, 100, 97, 116, 97, 95, 95],
        JsonValue.obj [([107], .str (List.replicate 4095 97 ++ [100]))]),
      (List.replicate 4095 97 ++ [101], innerVal)] = [([107], List.replicate 4095 97)] := by
  have hmd : strcmpEq [95, 95, 109, 101, 116, 97, 100, 97, 116, 97, 95, 95] metadataKey =
      true := by decide
  have hst := strncpyStore_rep_last 100 (by decide)
  have hk : strncpyStore [107] = [107] := by decide
  obtain ⟨R, hR⟩ : ∃ R, List.replicate 4095 97 = R := ⟨_, rfl⟩
  rw [hR] at hst ⊢
  simp [buildMetadata, json_object_get, hmd, hst, hk]

theorem c9load : csafetensors_load_from_memory c9input = Except.ok c9st := by
  have hlen : c9input.length = 8255 := by
    simp only [c9input, List.length_append, c9header_len, List.length_cons, List.length_nil]
  have hle : le64 c9input = 8247 := by
    simp only [le64, c9input, List.cons_append, List.nil_append, List.take_succ_cons,
      List.take_zero]
    decide
  have hdrop : c9input.drop 8 = c9header := by
    simp only [c9input, List.cons_append, List.nil_append, List.drop_succ_cons, List.drop_zero]
  have htake : c9header.take 8247 = c9header := by
    rw [← c9header_len, List.take_length]
  have hparse := c9header_parse 24737
  have hbt := c9_buildTensors
  have hbm := c9_buildMetadata
  have hguard : ((8255 : Nat) < 16) = False := by norm_num
  simp only [csafetensors_load_from_memory, hlen, hguard, if_false]
  simp only [parse_safetensors_header, hle, hdrop, htake, hlen, hguard,
    show ((8247 : Nat) < 2) = False by norm_num,
    show ((104857600 : Nat) < 8247) = False by norm_num,
    show ((8255 : Nat) < 8 + 8247) = False by norm_num, if_false]
  simp only [show (3 * 8247 + 8 : Nat) = 24737 + 12 by norm_num, hparse]
  simp only [hbt, hbm, c9st, c9tensor, show (8255 : Nat) - (8 + 8247) = 0 by norm_num]

theorem upToNul_rep_nil : upToNul (List.replicate 4095 97) = List.replicate 4095 97 := by
  conv_lhs => rw [← List.append_nil (List.replicate 4095 97)]
  rw [upToNul_replicate, show upToNul ([] : List Nat) = [] from rfl, List.append_nil]

theorem strcmp_rep_self : strcmpEq (List.replicate 4095 97) (List.replicate 4095 97) = true := by
  rw [strcmpEq]
  exact beq_self_eq_true _

theorem strcmp_rep_fullname :
    strcmpEq (List.replicate 4095 97) (List.replicate 4095 97 ++ [101]) = false := by
  rw [strcmpEq, upToNul_rep_nil, upToNul_replicate, show upToNul [101] = [101] by decide]
  refine beq_eq_false_iff_ne.mpr (ne_of_length_ne ?_)
  rw [List.length_append, List.length_replicate,
    show ([101] : List Nat).length = 1 by decide]
  omega

theorem c9_get_tensor_fullname :
    csafetensors_get_tensor c9st (List.replicate 4095 97 ++ [101]) = none := by
  rw [csafetensors_get_tensor]
  show List.find? _ [c9tensor] = none
  rw [List.find?_cons_of_neg, List.find?_nil]
  simp only [c9tensor, strcmp_rep_fullname]
  exact Bool.false_ne_true

theorem c9_get_tensor_truncated :
    csafetensors_get_tensor c9st (List.replicate 4095 97) = some c9tensor := by
  rw [csafetensors_get_tensor]
  show List.find? _ [c9tensor] = some c9tensor
  rw [List.find?_cons_of_pos]
  simp only [c9tensor, strcmp_rep_self]

theorem c9_get_metadata :
    csafetensors_get_metadata c9st [107] = some (List.replicate 4095 97) := by
  rw [csafetensors_get_metadata]
  show (List.find? _ [([107], List.replicate 4095 97)]).map _ = _
  rw [List.find?_cons_of_pos]
  · rfl
  · decide

/-! ## Duplicate-key invariant of the JSON parser -/

/-- The keys of an object value are pairwise `strcmp`-distinct (trivial on
every other constructor). -/
def topKeysOK : JsonValue → Prop
  | .obj pairs => List.Pairwise (fun a b => strcmpEq a.1 b.1 = false) pairs
  | _ => True

/-- `topKeysOK`, and every member value satisfies `topKeysOK` in turn. -/
def twoKeysOK : JsonValue → Prop
  | .obj pairs => List.Pairwise (fun a b => strcmpEq a.1 b.1 = false) pairs ∧
      ∀ p ∈ pairs, topKeysOK p.2
  | _ => True

theorem twoKeysOK_top {v : JsonValue} (h : twoKeysOK v) : topKeysOK v := by
  cases v <;> first | exact h.1 | trivial

theorem parse_keys_ok (fuel : Nat) :
    (∀ input v r, json_parse_value fuel input = some (v, r) → twoKeysOK v) ∧
    (∀ input v r, json_parse_array fuel input = some (v, r) → twoKeysOK v) ∧
    (∀ acc input v r, json_parse_array_items fuel acc input = some (v, r) → twoKeysOK v) ∧
    (∀ input v r, json_parse_object fuel input = some (v, r) → twoKeysOK v) ∧
    (∀ acc input v r,
      List.Pairwise (fun a b => strcmpEq b.1 a.1 = false) acc →
      (∀ p ∈ acc, topKeysOK p.2) →
      json_parse_object_items fuel acc input = some (v, r) → twoKeysOK v) := by
  induction fuel with
  | zero =>
    refine ⟨?_, ?_, ?_, ?_, ?_⟩ <;> intros <;>
      simp_all [json_parse_value, json_parse_array, json_parse_array_items,
        json_parse_object, json_parse_object_items]
  | succ f ih =>
    obtain ⟨ihv, iha, ihai, iho, ihoi⟩ := ih
    refine ⟨?_, ?_, ?_, ?_, ?_⟩
    · intro input v r h
      simp only [json_parse_value] at h
      split at h
      · cases h
      · split_ifs at h with h1 h2 h3 h4 h5 h6 h7
        · split at h <;> cases h <;> trivial
        · split at h <;> cases h <;> trivial
        · split at h <;> cases h <;> trivial
        · split at h <;> cases h <;> trivial
        · exact iha _ _ _ h
        · exact iho _ _ _ h
        · split at h <;> cases h <;> trivial
    · intro input v r h
      simp only [json_parse_array] at h
      split at h
      · cases h
        trivial
      · exact ihai _ _ _ _ h
    · intro acc input v r h
      simp only [json_parse_array_items] at h
      split at h
      · cases h
      · split at h
        · cases h
        · cases h
          trivial
        · exact ihai _ _ _ _ h
        · cases h
    · intro input v r h
      simp only [json_parse_object] at h
      split at h
      · cases h
        exact ⟨List.Pairwise.nil, fun p hp => absurd hp (List.not_mem_nil p)⟩
      · exact ihoi [] _ _ _ List.Pairwise.nil (fun p hp => absurd hp (List.not_mem_nil p)) h
    · intro acc input v r hpw htop h
      simp only [json_parse_object_items] at h
      split at h
      · -- input = 34 :: rest
        split at h
        · cases h
        · -- string loop produced (key, r1)
          rename_i key r1 heqs
          split at h
          · -- jsonSkipWs r1 = 58 :: r2
            split at h
            · cases h
            · -- json_parse_value f r2 = some (val, r3)
              rename_i val r3 heqv
              have hv : twoKeysOK val := ihv _ _ _ heqv
              split at h
              · cases h
              · -- duplicate scan negative
                rename_i hany
                have hfalse : ∀ p ∈ acc, strcmpEq p.1 key = false := fun p hp =>
                  Bool.eq_false_iff.mpr fun hb =>
                    hany (List.any_eq_true.mpr ⟨p, hp, hb⟩)
                split at h
                · cases h
                · cases h
                  refine ⟨?_, ?_⟩
                  · rw [List.pairwise_reverse]
                    exact List.Pairwise.cons (fun p hp => hfalse p hp) hpw
                  · intro p hp
                    rw [List.mem_reverse] at hp
                    rcases List.mem_cons.mp hp with h0 | h0
                    · subst h0
                      exact twoKeysOK_top hv
                    · exact htop p h0
                · refine ihoi _ _ _ _ ?_ ?_ h
                  · exact List.Pairwise.cons (fun p hp => hfalse p hp) hpw
                  · intro p hp
                    rcases List.mem_cons.mp hp with h0 | h0
                    · subst h0
                      exact twoKeysOK_top hv
                    · exact htop p h0
                · cases h
          · cases h
      · cases h

theorem parse_tensor_name (k : List Nat) (v : JsonValue) (t : CsTensor)
    (h : parse_tensor k v = some t) : t.name = strncpyStore k := by
  simp only [parse_tensor] at h
  repeat' split at h
  all_goals cases h
  all_goals rfl

theorem buildTensors_names (pairs : List (List Nat × JsonValue)) :
    ∀ ts, buildTensors pairs = some ts →
      ts.map (fun t => t.name) =
        pairs.filterMap (fun p =>
          if strcmpEq p.1 metadataKey then none else some (strncpyStore p.1)) := by
  induction pairs with
  | nil =>
    intro ts h
    cases h
    rfl
  | cons p rest ih =>
    obtain ⟨k, v⟩ := p
    intro ts h
    simp only [buildTensors] at h
    split at h
    · rename_i hsk
      simp only [List.filterMap_cons, hsk, if_true]
      exact ih ts h
    · rename_i hsk
      split at h
      · cases h
      · rename_i t0 hpt
        cases hbt : buildTensors rest with
        | none =>
          rw [hbt] at h
          cases h
        | some ts2 =>
          rw [hbt] at h
          cases h
          simp only [List.map_cons, List.filterMap_cons, hsk, if_false,
            parse_tensor_name k v t0 hpt, ih ts2 hbt]
          simp

theorem pairwise_filterMap {α β : Type} (f : α → Option β) {R : α → α → Prop}
    {S : β → β → Prop}
    (hf : ∀ a a2 b b2, f a = some b → f a2 = some b2 → R a a2 → S b b2) :
    ∀ l : List α, List.Pairwise R l → List.Pairwise S (l.filterMap f) := by
  intro l hl
  induction hl with
  | nil => exact List.Pairwise.nil
  | cons h1 h2 ih =>
    rename_i a t
    simp only [List.filterMap_cons]
    split
    · exact ih
    · rename_i b hfb
      refine List.Pairwise.cons ?_ ih
      intro b2 hb2
      obtain ⟨a2, ha2, hfa2⟩ := List.mem_filterMap.mp hb2
      exact hf _ _ _ _ hfb hfa2 (h1 a2 ha2)

theorem strncpyStore_len_lt (k : List Nat) (h : (strncpyStore k).length < 4095) :
    strncpyStore k = upToNul k := by
  rw [strncpyStore]
  rw [strncpyStore, List.length_take] at h
  apply List.take_of_length_le
  omega

theorem strncpyStore_short_inj (k1 k2 : List Nat)
    (h1 : (strncpyStore k1).length < 4095) (h2 : (strncpyStore k2).length < 4095)
    (hne : strcmpEq k1 k2 = false) : strncpyStore k1 ≠ strncpyStore k2 := by
  rw [strncpyStore_len_lt k1 h1, strncpyStore_len_lt k2 h2]
  exact beq_eq_false_iff_ne.mp hne

theorem filter_nodup_of_pairwise (l : List (List Nat))
    (h : List.Pairwise (fun a b => a.length < 4095 → b.length < 4095 → a ≠ b) l) :
    (l.filter fun n => n.length < 4095).Nodup := by
  induction l with
  | nil => exact List.Pairwise.nil
  | cons a t ih =>
    obtain ⟨ha, ht⟩ := List.pairwise_cons.mp h
    rw [List.filter_cons]
    split
    · rename_i hpa
      refine List.Pairwise.cons ?_ (ih ht)
      intro b hb hab
      rw [List.mem_filter] at hb
      exact ha b hb.1 (by simpa using hpa) (by simpa using hb.2) hab
    · exact ih ht

theorem c6_amended (data : List Nat) (st : Csafetensors)
    (hld : csafetensors_load_from_memory data = Except.ok st) :
    ((st.tensors.map fun t => t.name).filter fun n => n.length < 4095).Nodup ∧
    ((st.metadata.map fun p => p.1).filter fun n => n.length < 4095).Nodup := by
  simp only [csafetensors_load_from_memory] at hld
  split at hld
  · cases hld
  · split at hld
    · cases hld
    · rename_i H ts md hhd
      cases hld
      dsimp only
      simp only [parse_safetensors_header] at hhd
      split at hhd
      · cases hhd
      · split at hhd
        · cases hhd
        · split at hhd
          · cases hhd
          · split at hhd
            · cases hhd
            · split at hhd
              · cases hhd
              · rename_i root rest2 hroot
                split at hhd
                · rename_i pairs
                  split at hhd
                  · cases hhd
                  · rename_i ts0 hbt0
                    cases hhd
                    have h2 : twoKeysOK (JsonValue.obj pairs) :=
                      (parse_keys_ok _).1 _ _ _ hroot
                    obtain ⟨hpw, hvals⟩ := h2
                    constructor
                    · rw [buildTensors_names pairs _ hbt0]
                      apply filter_nodup_of_pairwise
                      refine pairwise_filterMap _ ?_ pairs hpw
                      intro a a2 b b2 hb hb2 hR
                      split at hb
                      · cases hb
                      · split at hb2
                        · cases hb2
                        · cases hb
                          cases hb2
                          exact fun l1 l2 => strncpyStore_short_inj _ _ l1 l2 hR
                    · rw [buildMetadata]
                      split
                      · rename_i m hget
                        have hmem : ∃ p ∈ pairs, p.2 = JsonValue.obj m := by
                          simp only [json_object_get] at hget
                          cases hfind : pairs.find? (fun p => strcmpEq p.1 metadataKey) with
                          | none =>
                            rw [hfind] at hget
                            cases hget
                          | some p =>
                            rw [hfind] at hget
                            refine ⟨p, List.mem_of_find?_eq_some hfind, ?_⟩
                            simpa using hget
                        obtain ⟨p, hpmem, hp2⟩ := hmem
                        have hmOK : List.Pairwise (fun a b => strcmpEq a.1 b.1 = false) m := by
                          have h3 := hvals p hpmem
                          rw [hp2] at h3
                          exact h3
                        rw [List.map_filterMap]
                        apply filter_nodup_of_pairwise
                        refine pairwise_filterMap _ ?_ m hmOK
                        intro a a2 b b2 hb hb2 hR
                        split at hb
                        · rename_i sv hsv
                          split at hb2
                          · rename_i sv2 hsv2
                            simp only [Option.map_some'] at hb hb2
                            cases hb
                            cases hb2
                            exact fun l1 l2 => strncpyStore_short_inj _ _ l1 l2 hR
                          · cases hb2
                        · cases hb
                      all_goals exact List.Pairwise.nil
                · cases hhd

/-- A small header with a literal duplicate key `"a"`. -/
def c6dupinput : List Nat :=
  mkInput "\x7b\"a\":\x7b\"dtype\":\"U8\",\"shape\":[0]\x7d,\"a\":\x7b\"dtype\":\"U8\",\"shape\":[0]\x7d\x7d" 0

/-- Counterexample to C6's consequence: `c6input` parses (its two 4096-byte
keys are `strcmp`-distinct, so the duplicate-key scan passes), yet both stored
tensor names are the same 4095-byte `strncpy` truncation - the loaded tensor
names are NOT pairwise distinct. -/
theorem c6_counterexample :
    csafetensors_load_from_memory c6input = Except.ok c6st ∧
    ¬ (c6st.tensors.map fun t => t.name).Nodup := by
  refine ⟨c6load, ?_⟩
  intro h
  simp only [c6st, c6tensor, List.map_cons, List.map_nil] at h
  exact (List.nodup_cons.mp h).1 (List.mem_singleton.mpr rfl)

/-- C6 amended: the JSON reader does fail on an object with two `strcmp`-equal
keys (shown on the literal duplicate-key image `c6dupinput`), and for every
successfully loaded object the tensor names and metadata keys that are shorter
than 4095 bytes are pairwise distinct.  The unfiltered name lists need not be
distinct: `strncpy` truncates names at 4095 bytes, so two distinct long keys
can collapse to one stored name (see the counterexample). -/
theorem c6_duplicate_keys_and_distinct_names (data : List Nat) (st : Csafetensors)
    (hld : csafetensors_load_from_memory data = Except.ok st) :
    csafetensors_load_from_memory c6dupinput = Except.error CsError.jsonParse ∧
    ((st.tensors.map fun t => t.name).filter fun n => n.length < 4095).Nodup ∧
    ((st.metadata.map fun p => p.1).filter fun n => n.length < 4095).Nodup :=
  ⟨by decide, (c6_amended data st hld).1, (c6_amended data st hld).2⟩

/-- Two short tensors `a` and `b`. -/
def c6winput : List Nat :=
  mkInput "\x7b\"a\":\x7b\"dtype\":\"U8\",\"shape\":[0]\x7d,\"b\":\x7b\"dtype\":\"U8\",\"shape\":[0]\x7d\x7d" 0

/-- The object `c6winput` loads. -/
def c6wst : Csafetensors :=
  ⟨[⟨[97], .uint8, [0], 0, 0⟩, ⟨[98], .uint8, [0], 0, 0⟩], [], 63, 0, false⟩

/-- Witness for the amended C6 at the two-short-tensor image `c6winput`. -/
theorem c6_duplicate_keys_and_distinct_names_witness :
    csafetensors_load_from_memory c6winput = Except.ok c6wst ∧
    (csafetensors_load_from_memory c6dupinput = Except.error CsError.jsonParse ∧
      ((c6wst.tensors.map fun t => t.name).filter fun n => n.length < 4095).Nodup ∧
      ((c6wst.metadata.map fun p => p.1).filter fun n => n.length < 4095).Nodup) :=
  ⟨by decide, c6_duplicate_keys_and_distinct_names c6winput c6wst (by decide)⟩

/-- C9: names, metadata keys and metadata values are silently truncated to
4095 bytes.  `c9input` carries a 4096-byte tensor name and a 4096-byte
metadata value; the load succeeds, `get_tensor` with the original full name
returns the absent marker while the truncated name finds the tensor, the
stored metadata value is the truncation (not the original), and two distinct
4096-byte names collide after `strncpy` truncation. -/
theorem c9_fixed_buffer_truncation :
    csafetensors_load_from_memory c9input = Except.ok c9st ∧
    csafetensors_get_tensor c9st (List.replicate 4095 97 ++ [101]) = none ∧
    csafetensors_get_tensor c9st (List.replicate 4095 97) = some c9tensor ∧
    csafetensors_get_metadata c9st [107] = some (List.replicate 4095 97) ∧
    (List.replicate 4095 97 ++ [100]) ≠ List.replicate 4095 97 ∧
    strncpyStore (List.replicate 4095 97 ++ [102]) =
      strncpyStore (List.replicate 4095 97 ++ [103]) ∧
    (List.replicate 4095 97 ++ [102]) ≠ (List.replicate 4095 97 ++ [103]) := by
  refine ⟨c9load, c9_get_tensor_fullname, c9_get_tensor_truncated, c9_get_metadata, ?_, ?_, ?_⟩
  · refine ne_of_length_ne ?_
    rw [List.length_append, List.length_replicate,
      show ([100] : List Nat).length = 1 by decide]
    omega
  · rw [strncpyStore_rep_last 102 (by decide), strncpyStore_rep_last 103 (by decide)]
  · exact replicate_append_last_ne 4095 102 103 (by decide)

end CSafetensors
